import Mathlib

/-!
Verification of the CherryStudio prompt-compiler scripts
(`compile.py`, `validate.py`, `fix.py`) against their specification.

The development is a shallow embedding of the three scripts:
Python JSON-like values become `PyValue`, dictionaries become ordered
association lists, functions that can raise become `Except String`,
and the regex operations used by the scripts are embedded as dedicated
matchers implementing the exact search semantics of each pattern.

Restrictions of the embedding (documented where relevant):
numbers are integers (the catalogs use integer ids only), `str.lower`
and `str.isdigit` are embedded ASCII-only, and `repr` of strings does
not reproduce Python's escaping (it is unreachable in every theorem).
-/

/-- Python JSON-like values: the value space of records loaded with
`json.loads` in `fix.py` / `validate.py` and produced by `compile.py`.
Numbers are modelled as integers. -/
inductive PyValue where
  | none : PyValue
  | bool : Bool → PyValue
  | int : Int → PyValue
  | str : String → PyValue
  | list : List PyValue → PyValue
  | dict : List (String × PyValue) → PyValue
deriving Repr

/-- Python truthiness (`bool(v)`): `None`, `False`, `0`, `""`, `[]`, `{}` are falsy. -/
def truthy : PyValue → Bool
  | .none => false
  | .bool b => b
  | .int n => n != 0
  | .str s => s != ""
  | .list l => !l.isEmpty
  | .dict l => !l.isEmpty

mutual

/-- Python `==` on values. Booleans equal their integer value (`True == 1`);
values of otherwise different types are unequal.  Lists and dictionaries
compare structurally (dictionaries never reach `==` in the scripts, since
they are unhashable and id-set membership raises first). -/
def pyEq : PyValue → PyValue → Bool
  | .none, .none => true
  | .bool a, .bool b => a == b
  | .bool a, .int b => (if a then (1 : Int) else 0) == b
  | .int a, .bool b => a == (if b then (1 : Int) else 0)
  | .int a, .int b => a == b
  | .str a, .str b => a == b
  | .list a, .list b => pyEqList a b
  | .dict a, .dict b => pyEqDict a b
  | _, _ => false

/-- Elementwise `==` on Python lists. -/
def pyEqList : List PyValue → List PyValue → Bool
  | [], [] => true
  | a :: as', b :: bs' => pyEq a b && pyEqList as' bs'
  | _, _ => false

/-- Structural `==` on Python dictionaries (unreachable in the scripts). -/
def pyEqDict : List (String × PyValue) → List (String × PyValue) → Bool
  | [], [] => true
  | (ka, va) :: as', (kb, vb) :: bs' => ka == kb && pyEq va vb && pyEqDict as' bs'
  | _, _ => false

end

/-- Python `type(v).__name__` for the modelled value space. -/
def pyTypeName : PyValue → String
  | .none => "NoneType"
  | .bool _ => "bool"
  | .int _ => "int"
  | .str _ => "str"
  | .list _ => "list"
  | .dict _ => "dict"

/-- Decimal digit character for a digit value (`0`–`9`). -/
def digitChar : Nat → Char
  | 0 => '0' | 1 => '1' | 2 => '2' | 3 => '3' | 4 => '4'
  | 5 => '5' | 6 => '6' | 7 => '7' | 8 => '8' | _ => '9'

/-- Numeric value of a decimal digit character. -/
def charDigitVal : Char → Nat
  | '0' => 0 | '1' => 1 | '2' => 2 | '3' => 3 | '4' => 4
  | '5' => 5 | '6' => 6 | '7' => 7 | '8' => 8 | _ => 9

/-- Fuel-indexed decimal rendering; the fuel only bounds the recursion
depth and is irrelevant once it exceeds the number being rendered. -/
def natToDecimalAux : Nat → Nat → List Char
  | 0, _ => []
  | fuel + 1, n =>
    if n < 10 then [digitChar n]
    else natToDecimalAux fuel (n / 10) ++ [digitChar (n % 10)]

/-- Decimal digit list of a natural number (most significant first),
as produced by Python's `str` on a non-negative `int`. -/
def natToDecimal (n : Nat) : List Char :=
  natToDecimalAux (n + 1) n

/-- Python `str(i)` for an integer. -/
def pyIntStr (i : Int) : String :=
  if i < 0 then "-" ++ String.mk (natToDecimal i.natAbs)
  else String.mk (natToDecimal i.toNat)

/-- Value of a decimal digit list (left fold, most significant first). -/
def decimalToNat (l : List Char) : Nat :=
  l.foldl (fun acc c => acc * 10 + charDigitVal c) 0

mutual

/-- Python `str(v)`: identity on strings, `repr` on everything else. -/
def pyToStr : PyValue → String
  | .str s => s
  | v => pyRepr v

/-- Python `repr(v)` for the modelled value space.  String escaping and
quote selection are simplified to plain single quotes; no theorem in this
file evaluates `repr` of a string containing quotes. -/
def pyRepr : PyValue → String
  | .none => "None"
  | .bool b => if b then "True" else "False"
  | .int i => pyIntStr i
  | .str s => "'" ++ s ++ "'"
  | .list l => "[" ++ pyReprList l ++ "]"
  | .dict l => "\x7b" ++ pyReprDict l ++ "\x7d"

/-- Comma-separated `repr` of list elements. -/
def pyReprList : List PyValue → String
  | [] => ""
  | [x] => pyRepr x
  | x :: xs => pyRepr x ++ ", " ++ pyReprList xs

/-- Comma-separated `repr` of dictionary items. -/
def pyReprDict : List (String × PyValue) → String
  | [] => ""
  | [(k, v)] => "'" ++ k ++ "': " ++ pyRepr v
  | (k, v) :: xs => "'" ++ k ++ "': " ++ pyRepr v ++ ", " ++ pyReprDict xs

end

/-- Records are Python dictionaries: ordered association lists, one entry
per key, insertion order preserved (CPython 3.7+ semantics). -/
def Record := List (String × PyValue)

/-- Python `d[k] = v`: update the existing entry in place, else append. -/
def rset : Record → String → PyValue → Record
  | [], k, v => [(k, v)]
  | (k', v') :: rest, k, v =>
    if k' == k then (k, v) :: rest else (k', v') :: rset rest k v

/-- Python `d.get(k)` (`None` when absent is rendered as `Option.none`). -/
def rget (r : Record) (k : String) : Option PyValue :=
  match r with
  | [] => Option.none
  | (k', v) :: rest => if k' == k then some v else rget rest k

/-- Python `d.get(k, default)`. -/
def rgetD (r : Record) (k : String) (d : PyValue) : PyValue :=
  (rget r k).getD d

/-- Python `k in d`. -/
def rhas (r : Record) (k : String) : Bool :=
  (rget r k).isSome

/-- Whitespace for Python's `\s` (str patterns) and `str.strip()`:
ASCII whitespace, the information separators, and the Unicode spaces. -/
def pyIsSpace (c : Char) : Bool :=
  c == ' ' || c == '\t' || c == '\n' || c == '\x0b' || c == '\x0c' || c == '\r' ||
  c == '\x1c' || c == '\x1d' || c == '\x1e' || c == '\x1f' || c == '\x85' ||
  c == '\xa0' || c.toNat == 0x1680 ||
  (0x2000 <= c.toNat && c.toNat <= 0x200a) ||
  c.toNat == 0x2028 || c.toNat == 0x2029 || c.toNat == 0x202f ||
  c.toNat == 0x205f || c.toNat == 0x3000

/-- Python `str.strip()` on a character list. -/
def pyStripList (l : List Char) : List Char :=
  ((l.dropWhile pyIsSpace).reverse.dropWhile pyIsSpace).reverse

/-- Python `str.strip()`. -/
def pyStrip (s : String) : String :=
  String.mk (pyStripList s.data)

/-- Python `str.strip(c)` for a single strip character `c`
(strips every leading and trailing occurrence). -/
def pyStripChar (c : Char) (s : String) : String :=
  String.mk (((s.data.dropWhile (· == c)).reverse.dropWhile (· == c)).reverse)

/-- ASCII-only embedding of Python `str.lower()` on one character. -/
def pyLowerChar (c : Char) : Char :=
  if 'A' ≤ c && c ≤ 'Z' then Char.ofNat (c.toNat + 32) else c

/-- ASCII-only embedding of Python `str.lower()`. -/
def pyLower (s : String) : String :=
  String.mk (s.data.map pyLowerChar)

/-- `s` occurs at the start of `t` (character lists). -/
def listIsPrefix (s t : List Char) : Bool :=
  match s, t with
  | [], _ => true
  | _ :: _, [] => false
  | c :: cs, d :: ds => c == d && listIsPrefix cs ds

/-- Python `s in t` (substring containment) on character lists. -/
def containsSub (t s : List Char) : Bool :=
  match t with
  | [] => listIsPrefix s []
  | _ :: rest => listIsPrefix s t || containsSub rest s

/-- Python `sub in s` on strings. -/
def strContainsSub (s sub : String) : Bool :=
  containsSub s.data sub.data

/-- Python `s.split(sep, 1)` for a one-character separator occurring in `s`:
the parts before and after the first occurrence. -/
def splitFirst (sep : Char) : List Char → (List Char × List Char)
  | [] => ([], [])
  | c :: cs =>
    if c == sep then ([], cs)
    else
      let (a, b) := splitFirst sep cs
      (c :: a, b)

/-- Python ASCII `str.isdigit()`: non-empty and all characters `0`–`9`. -/
def pyIsDigitStr (s : String) : Bool :=
  s != "" && s.data.all (fun c => '0' ≤ c && c ≤ '9')

/-- `s` occurs at the end of `t` (character lists). -/
def listIsSuffix (s t : List Char) : Bool :=
  listIsPrefix s.reverse t.reverse

/-- Python `text.split(sep)` for a one-character separator: always at
least one part, empty parts preserved. -/
def splitOnChar (sep : Char) : List Char → List (List Char)
  | [] => [[]]
  | c :: cs =>
    let rest := splitOnChar sep cs
    if c == sep then [] :: rest
    else
      match rest with
      | h :: t => (c :: h) :: t
      | [] => [[c]]

/-!
### The frontmatter regex

`compile.py` extracts frontmatter with
`re.match(r"^---\s*\n(.*?)\n---\s*\n(.*)$", content, re.DOTALL)`.
The matcher below implements exactly this pattern's backtracking search:
`\s*` is greedy (longest split tried first), `(.*?)` is lazy (shortest
prefix tried first), and with `DOTALL` the final `(.*)$` always consumes
the whole remainder.
-/

/-- Suffixes of `l` left after matching `\s*\n` at its head, in the greedy
engine's order: the split consuming the most characters first.  Each split
consumes a whitespace prefix whose last character is a newline. -/
def wsNlSuffixes : List Char → List (List Char)
  | [] => []
  | c :: cs =>
    let deeper := if pyIsSpace c then wsNlSuffixes cs else []
    if c == '\n' then deeper ++ [cs] else deeper

/-- First success of `f` over `xs` in order (regex backtracking order). -/
def firstSome {α β : Type} (xs : List α) (f : α → Option β) : Option β :=
  match xs with
  | [] => Option.none
  | x :: rest =>
    match f x with
    | some b => some b
    | Option.none => firstSome rest f

/-- Lazy search for `\n---\s*\n` from the current position: returns the
(shortest) group-1 prefix and the greedy group-2 remainder.  An occurrence
of `\n---` not followed by whitespace ending in a newline is skipped, as
the engine's backtracking does. -/
def findCloseDelim : List Char → Option (List Char × List Char)
  | [] => Option.none
  | c :: cs =>
    let fallback : Option (List Char × List Char) :=
      match findCloseDelim cs with
      | some (g1, g2) => some (c :: g1, g2)
      | Option.none => Option.none
    if c == '\n' && listIsPrefix ['-', '-', '-'] cs then
      match wsNlSuffixes (cs.drop 3) with
      | g2 :: _ => some ([], g2)
      | [] => fallback
    else fallback

/-- The full frontmatter match: `some (yamlText, body)` on success. -/
def frontmatterMatch (content : List Char) : Option (List Char × List Char) :=
  match content with
  | '-' :: '-' :: '-' :: rest => firstSome (wsNlSuffixes rest) findCloseDelim
  | _ => Option.none

/-!
### The title regex of the fixer

`fix.py` extracts a name with `re.search(r"^#\s+(.+)$", content, re.MULTILINE)`.
`\s` may cross newlines, `.` may not, and `$` always holds after a maximal
run of non-newline characters, so a match at a line-start `#` needs a
greedy-then-backtracked whitespace split whose following character exists
and is not a newline.
-/

/-- Backtracking for `\s+` after `#`: try split lengths `k, k-1, …, 1`;
a split succeeds when the character after it exists and is not `\n`,
and the captured group is the run of non-newline characters from there. -/
def matchTitleK : Nat → List Char → Option (List Char)
  | 0, _ => Option.none
  | k + 1, rest =>
    match rest.drop (k + 1) with
    | [] => matchTitleK k rest
    | c :: _ =>
      if c == '\n' then matchTitleK k rest
      else some ((rest.drop (k + 1)).takeWhile (· != '\n'))

/-- Match `\s+(.+)$` directly after a line-start `#`. -/
def matchTitle (rest : List Char) : Option (List Char) :=
  matchTitleK (rest.takeWhile pyIsSpace).length rest

/-- `re.search` scan for `^#\s+(.+)$`: the boolean tracks whether the
current position is a line start. -/
def searchTitle : Bool → List Char → Option (List Char)
  | _, [] => Option.none
  | atStart, c :: cs =>
    if atStart && c == '#' then
      match matchTitle cs with
      | some t => some t
      | Option.none => searchTitle (c == '\n') cs
    else searchTitle (c == '\n') cs

/-- One step of `re.sub(r"[\s_]+", "-", s)`: the boolean records whether
the previous character was part of a replaced run. -/
def subWsUnderscoreAux : Bool → List Char → List Char
  | _, [] => []
  | inRun, c :: cs =>
    if pyIsSpace c || c == '_' then
      if inRun then subWsUnderscoreAux true cs
      else '-' :: subWsUnderscoreAux true cs
    else c :: subWsUnderscoreAux false cs

/-- Python `re.sub(r"[\s_]+", "-", s)`: each maximal whitespace/underscore
run becomes a single hyphen. -/
def subWsUnderscore (l : List Char) : List Char :=
  subWsUnderscoreAux false l

/-!
### fix.py — emoji data

The emoji ranges of `PromptFixer._is_valid_emoji`, and the
`EMOJI_FIXES` table.  The string literals of `fix.py` are stored in the
file as UTF-8-decoded CP-1252 mojibake of the intended emoji (for example
`DEFAULT_EMOJI` is the four characters U+00F0 U+0178 U+201D U+00A7, not
U+1F527); the constants below reproduce those exact code points.
-/

/-- The emoji code-point ranges of `PromptFixer._is_valid_emoji`. -/
def fixerEmojiRanges : List (Nat × Nat) :=
  [(0x1F600, 0x1F64F), (0x1F300, 0x1F5FF), (0x1F680, 0x1F6FF),
   (0x1F1E0, 0x1F1FF), (0x2600, 0x26FF), (0x2700, 0x27BF),
   (0x1F900, 0x1F9FF), (0x1FA00, 0x1FA6F), (0x1FA70, 0x1FAFF),
   (0x231A, 0x23FF), (0x2B50, 0x2B55), (0x203C, 0x3299)]

/-- `any(start <= code <= end for start, end in emoji_ranges)` (fixer). -/
def charInFixerRanges (c : Char) : Bool :=
  fixerEmojiRanges.any (fun p => p.1 ≤ c.toNat && c.toNat ≤ p.2)

/-- Mojibake of 👨‍💼 as stored in `fix.py`. -/
def mjPersonBriefcase : String :=
  String.mk [Char.ofNat 0xF0, Char.ofNat 0x178, Char.ofNat 0x2018, Char.ofNat 0xA8,
             Char.ofNat 0xE2, Char.ofNat 0x20AC, Char.ofNat 0xF0, Char.ofNat 0x178,
             Char.ofNat 0x2019, Char.ofNat 0xBC]

/-- Mojibake of 🚀 as stored in `fix.py`. -/
def mjRocket : String :=
  String.mk [Char.ofNat 0xF0, Char.ofNat 0x178, Char.ofNat 0x161, Char.ofNat 0x20AC]

/-- Mojibake of 👨‍💻 as stored in `fix.py`. -/
def mjPersonLaptop : String :=
  String.mk [Char.ofNat 0xF0, Char.ofNat 0x178, Char.ofNat 0x2018, Char.ofNat 0xA8,
             Char.ofNat 0xE2, Char.ofNat 0x20AC, Char.ofNat 0xF0, Char.ofNat 0x178,
             Char.ofNat 0x2019, Char.ofNat 0xBB]

/-- Mojibake of 💻 as stored in `fix.py`. -/
def mjLaptop : String :=
  String.mk [Char.ofNat 0xF0, Char.ofNat 0x178, Char.ofNat 0x2019, Char.ofNat 0xBB]

/-- Mojibake of 🎨 as stored in `fix.py`. -/
def mjPalette : String :=
  String.mk [Char.ofNat 0xF0, Char.ofNat 0x178, Char.ofNat 0x17D, Char.ofNat 0xA8]

/-- Mojibake of ✍️ as stored in `fix.py`. -/
def mjWritingHand : String :=
  String.mk [Char.ofNat 0xE2, Char.ofNat 0x153, Char.ofNat 0xEF, Char.ofNat 0xB8]

/-- Mojibake of 📊 as stored in `fix.py`. -/
def mjChart : String :=
  String.mk [Char.ofNat 0xF0, Char.ofNat 0x178, Char.ofNat 0x201C, Char.ofNat 0x160]

/-- Mojibake of 💬 as stored in `fix.py`. -/
def mjSpeech : String :=
  String.mk [Char.ofNat 0xF0, Char.ofNat 0x178, Char.ofNat 0x2019, Char.ofNat 0xAC]

/-- Mojibake of 📚 as stored in `fix.py`. -/
def mjBooks : String :=
  String.mk [Char.ofNat 0xF0, Char.ofNat 0x178, Char.ofNat 0x201C, Char.ofNat 0x161]

/-- Mojibake of 💰 as stored in `fix.py`. -/
def mjMoneyBag : String :=
  String.mk [Char.ofNat 0xF0, Char.ofNat 0x178, Char.ofNat 0x2019, Char.ofNat 0xB0]

/-- Mojibake of 🔬 as stored in `fix.py`. -/
def mjMicroscope : String :=
  String.mk [Char.ofNat 0xF0, Char.ofNat 0x178, Char.ofNat 0x201D, Char.ofNat 0xAC]

/-- Mojibake of 🤖 as stored in `fix.py`. -/
def mjRobot : String :=
  String.mk [Char.ofNat 0xF0, Char.ofNat 0x178, Char.ofNat 0xA4, Char.ofNat 0x2013]

/-- Mojibake of ⚙️ as stored in `fix.py`. -/
def mjGear : String :=
  String.mk [Char.ofNat 0xE2, Char.ofNat 0x161, Char.ofNat 0x2122, Char.ofNat 0xEF,
             Char.ofNat 0xB8]

/-- Mojibake of 🔧 as stored in `fix.py` (`DEFAULT_EMOJI` there). -/
def DEFAULT_EMOJI_fix : String :=
  String.mk [Char.ofNat 0xF0, Char.ofNat 0x178, Char.ofNat 0x201D, Char.ofNat 0xA7]

/-- The `EMOJI_FIXES` table of `fix.py`, in source (insertion) order. -/
def EMOJI_FIXES : List (String × String) :=
  [("product manager", mjPersonBriefcase), ("pm", mjPersonBriefcase),
   ("business", mjPersonBriefcase), ("strategy", mjPersonBriefcase),
   ("marketing", mjPersonBriefcase), ("startup", mjRocket), ("founder", mjRocket),
   ("developer", mjPersonLaptop), ("engineer", mjPersonLaptop),
   ("coding", mjPersonLaptop), ("programming", mjPersonLaptop),
   ("software", mjPersonLaptop), ("debug", mjPersonLaptop),
   ("frontend", mjLaptop), ("backend", mjLaptop), ("devops", mjLaptop),
   ("design", mjPalette), ("creative", mjPalette), ("ui", mjPalette),
   ("ux", mjPalette), ("writer", mjWritingHand), ("writing", mjWritingHand),
   ("content", mjWritingHand), ("analytic", mjChart), ("data", mjChart),
   ("metric", mjChart), ("statistics", mjChart), ("chat", mjSpeech),
   ("support", mjSpeech), ("communication", mjSpeech), ("customer", mjSpeech),
   ("teacher", mjBooks), ("education", mjBooks), ("learning", mjBooks),
   ("tutorial", mjBooks), ("finance", mjMoneyBag), ("money", mjMoneyBag),
   ("trading", mjMoneyBag), ("science", mjMicroscope), ("research", mjMicroscope),
   ("assistant", mjRobot), ("helper", mjRobot), ("copilot", mjRobot),
   ("automation", mjGear)]

/-!
### fix.py — PromptFixer

Each per-field fix returns the updated record and whether a fix was
applied (`True`/`False` in the source).  Functions that can raise a
Python exception return `Except String`; pure ones return directly.
The fix log (`add_fix`, `add_warning`) only feeds terminal reporting and
is not modelled.
-/

/-- Python `ord(v)`: code point of a one-character string, `TypeError`
otherwise. -/
def pyOrd : PyValue → Except String Nat
  | .str s =>
    match s.data with
    | [c] => pure c.toNat
    | _ => Except.error "TypeError: ord() expected a character"
  | _ => Except.error "TypeError: ord() expected str"

/-- The `for char in text` loop body of `_is_valid_emoji` /
`_looks_like_emoji` over an iterable's elements: `ord` each element and
test the ranges, returning at the first hit. -/
def anyOrdInRanges (inRanges : Nat → Bool) : List PyValue → Except String Bool
  | [] => pure false
  | v :: rest => do
    let code ← pyOrd v
    if inRanges code then pure true else anyOrdInRanges inRanges rest

/-- Membership of a code point in the fixer's ranges. -/
def codeInFixerRanges (code : Nat) : Bool :=
  fixerEmojiRanges.any (fun p => p.1 ≤ code && code ≤ p.2)

/-- `PromptFixer._is_valid_emoji(text)`: `False` for a falsy argument or
length above 4, else a scan of the characters for the emoji ranges.
Iterating a non-iterable or `ord` of a non-character raises. -/
def PromptFixer_is_valid_emoji : PyValue → Except String Bool
  | .str s =>
    if s == "" || s.length > 4 then pure false
    else pure (s.data.any charInFixerRanges)
  | .none => pure false
  | .bool b =>
    if !b then pure false else Except.error "TypeError: object of type bool has no len()"
  | .int n =>
    if n == 0 then pure false else Except.error "TypeError: object of type int has no len()"
  | .list l =>
    if l.isEmpty || l.length > 4 then pure false
    else anyOrdInRanges codeInFixerRanges l
  | .dict d =>
    if d.isEmpty || d.length > 4 then pure false
    else anyOrdInRanges codeInFixerRanges (d.map (fun p => PyValue.str p.1))

/-- `PromptFixer._generate_emoji(description, name)`: first
`EMOJI_FIXES` key contained in the lowered `f"{description} {name}"`. -/
def PromptFixer_generate_emoji (description name : PyValue) : String :=
  let text := pyLower (pyToStr description ++ " " ++ pyToStr name)
  match EMOJI_FIXES.find? (fun p => containsSub text.data p.1.data) with
  | some p => p.2
  | Option.none => DEFAULT_EMOJI_fix

/-- `PromptFixer._extract_name_from_content(content)`: `TypeError` when
the content is not a string (as `re.search` raises); otherwise the first
`^#\s+(.+)$` match, stripped, lowered, whitespace/underscore runs
collapsed to hyphens and stripped again.  `Option.none` models Python's
`None` (no match). -/
def PromptFixer_extract_name_from_content : PyValue → Except String (Option String)
  | .str s =>
    match searchTitle true s.data with
    | some t =>
      let title := pyStripList t
      pure (some (String.mk (pyStripList (subWsUnderscore (title.map pyLowerChar)))))
    | Option.none => pure Option.none
  | _ => Except.error "TypeError: expected string or bytes-like object"

/-- `PromptFixer.fix_id(prompt, index)`: force the id to
`str(index + 1)`; the `isinstance(current_id, int)` arm is kept although
it is unreachable (an id equal to the expected string is never an int). -/
def PromptFixer_fix_id (r : Record) (index : Nat) : Record × Bool :=
  let currentId := rgetD r "id" .none
  let expectedId := pyIntStr ((index : Int) + 1)
  if !pyEq currentId (.str expectedId) then
    (rset r "id" (.str expectedId), true)
  else
    match currentId with
    | .int n => (rset r "id" (.str (pyIntStr n)), true)
    | _ => (r, false)

/-- `PromptFixer.fix_name(prompt)`: replace a falsy or non-string name by
a title extracted from the prompt content, else by `prompt-<id>`.
Raises when the extraction runs on a non-string prompt content. -/
def PromptFixer_fix_name (r : Record) : Except String (Record × Bool) := do
  let name := rgetD r "name" (.str "")
  let pid := rgetD r "id" (.str "unknown")
  if !truthy name || !(match name with | .str _ => true | _ => false) then
    let content := rgetD r "prompt" (.str "")
    let newName ← PromptFixer_extract_name_from_content content
    match newName with
    | some nm =>
      if nm != "" then pure (rset r "name" (.str nm), true)
      else pure (rset r "name" (.str ("prompt-" ++ pyToStr pid)), true)
    | Option.none => pure (rset r "name" (.str ("prompt-" ++ pyToStr pid)), true)
  else pure (r, false)

/-- `PromptFixer.fix_description(prompt)`: `None` becomes the empty
string, a non-string is stringified, a string is left alone. -/
def PromptFixer_fix_description (r : Record) : Record × Bool :=
  let description := rgetD r "description" .none
  match description with
  | .none => (rset r "description" (.str ""), true)
  | .str _ => (r, false)
  | v => (rset r "description" (.str (pyToStr v)), true)

/-- `PromptFixer.fix_emoji(prompt)`: regenerate the emoji when it is
falsy or fails `_is_valid_emoji` (which may raise on non-strings). -/
def PromptFixer_fix_emoji (r : Record) : Except String (Record × Bool) := do
  let emoji := rgetD r "emoji" (.str "")
  let description := rgetD r "description" (.str "")
  let name := rgetD r "name" (.str "")
  let invalid ←
    if !truthy emoji then pure true
    else do
      let v ← PromptFixer_is_valid_emoji emoji
      pure (!v)
  if invalid then
    pure (rset r "emoji" (.str (PromptFixer_generate_emoji description name)), true)
  else pure (r, false)

/-- `PromptFixer.fix_group(prompt)`: default a missing group, wrap a
string, replace a non-list, default an empty list, and filter an existing
list down to its stripped non-blank string entries (falling back to
`["General"]` when nothing survives).  When the filter drops nothing the
list is left untouched. -/
def PromptFixer_fix_group (r : Record) : Record × Bool :=
  let group := rgetD r "group" .none
  match group with
  | .none => (rset r "group" (.list [.str "General"]), true)
  | .str s => (rset r "group" (.list [.str s]), true)
  | .list l =>
    if l.isEmpty then (rset r "group" (.list [.str "General"]), true)
    else
      let fixedGroup := l.filterMap (fun g =>
        match g with
        | .str s => if pyStrip s != "" then some (pyStrip s) else Option.none
        | _ => Option.none)
      if fixedGroup.isEmpty then (rset r "group" (.list [.str "General"]), true)
      else if fixedGroup.length != l.length then
        (rset r "group" (.list (fixedGroup.map PyValue.str)), true)
      else (r, false)
  | _ => (rset r "group" (.list [.str "General"]), true)

/-- Python `v[0]` as used by `_generate_minimal_frontmatter` on a truthy
`group` value. -/
def pySubscriptZero : PyValue → Except String PyValue
  | .list (x :: _) => pure x
  | .list [] => Except.error "IndexError: list index out of range"
  | .str s =>
    (match s.data with
     | c :: _ => pure (.str (String.mk [c]))
     | [] => Except.error "IndexError: string index out of range")
  | .dict _ => Except.error "KeyError: 0"
  | _ => Except.error "TypeError: object is not subscriptable"

/-- `PromptFixer._generate_minimal_frontmatter(name, description, group)`. -/
def PromptFixer_generate_minimal_frontmatter (description group : PyValue) :
    Except String String := do
  let category ← if truthy group then pySubscriptZero group else pure (.str "General")
  pure ("---\ndescription: " ++ pyToStr description ++ "\ncategory:\n  - " ++
        pyToStr category ++ "\n---")

/-- `PromptFixer.fix_prompt(prompt)`: synthesize a document for an empty
prompt, stringify a non-string one, and prepend frontmatter when the
stripped content does not start with `---`. -/
def PromptFixer_fix_prompt (r : Record) : Except String (Record × Bool) := do
  let content := rgetD r "prompt" (.str "")
  let name := rgetD r "name" (.str "")
  let description := rgetD r "description" (.str "")
  let group := rgetD r "group" (.list [.str "General"])
  if !truthy content then do
    let fm ← PromptFixer_generate_minimal_frontmatter description group
    pure (rset r "prompt"
      (.str (fm ++ "\n\n# " ++ pyToStr name ++ "\n\nYour prompt content here.")), true)
  else
    match content with
    | .str s =>
      if !listIsPrefix "---".data (pyStrip s).data then do
        let fm ← PromptFixer_generate_minimal_frontmatter description group
        pure (rset r "prompt" (.str (fm ++ "\n\n" ++ s)), true)
      else pure (r, false)
    | v => pure (rset r "prompt" (.str (pyToStr v)), true)

/-- `PromptFixer.fix_prompt_object(prompt, index)`: the six per-field
fixes in source order; returns whether any fix was applied. -/
def PromptFixer_fix_prompt_object (r : Record) (index : Nat) :
    Except String (Record × Bool) := do
  let (r1, b1) := PromptFixer_fix_id r index
  let (r2, b2) ← PromptFixer_fix_name r1
  let (r3, b3) := PromptFixer_fix_description r2
  let (r4, b4) ← PromptFixer_fix_emoji r3
  let (r5, b5) := PromptFixer_fix_group r4
  let (r6, b6) ← PromptFixer_fix_prompt r5
  pure (r6, b1 || b2 || b3 || b4 || b5 || b6)

/-- The per-record loop of `PromptFixer.fix_file` (`for i, prompt in
enumerate(prompts): self.fix_prompt_object(prompt, i)`), starting from a
given index.  An uncaught exception aborts the whole batch, as in the
source, where no handler surrounds the loop. -/
def fixRecordsFrom : Nat → List Record → Except String (List Record)
  | _, [] => pure []
  | i, r :: rs => do
    let (r', _) ← PromptFixer_fix_prompt_object r i
    let rest ← fixRecordsFrom (i + 1) rs
    pure (r' :: rest)

/-- The Repair Engine pass over a whole collection. -/
def fixRecords (rs : List Record) : Except String (List Record) :=
  fixRecordsFrom 0 rs

/-!
### validate.py — PromptValidator

Issues carry the severity, the prompt id as passed to `add_issue`
(some checks pass `str(pid)`, others the raw value), the field, the
message and the optional suggestion, with the f-strings of the source
reproduced literally.
-/

/-- One validation issue (`ValidationIssue` in `validate.py`). -/
structure ValidationIssue where
  level : String
  promptId : PyValue
  field : String
  message : String
  suggestion : Option String
deriving Repr

/-- The required fields of `check_required_fields`, in source order. -/
def requiredFields : List String :=
  ["id", "name", "description", "emoji", "group", "prompt"]

/-- `PromptValidator.check_required_fields`. -/
def check_required_fields (prompts : List Record) : List ValidationIssue :=
  (prompts.map (fun p =>
    let pid := rgetD p "id" (.str "unknown")
    requiredFields.filterMap (fun f =>
      if !rhas p f then
        some ⟨"error", .str (pyToStr pid), f,
              "Required field '" ++ f ++ "' is missing",
              some ("Add '" ++ f ++ "': <value> to the prompt object")⟩
      else Option.none))).flatten

/-- Whether a value is a Python `str`. -/
def isPyStr : PyValue → Bool
  | .str _ => true
  | _ => false

/-- Whether a value is a Python `list`. -/
def isPyList : PyValue → Bool
  | .list _ => true
  | _ => false

/-- `PromptValidator.check_field_types`: six in-order type checks per
record, each firing only when the field is present with a wrong type. -/
def check_field_types (prompts : List Record) : List ValidationIssue :=
  (prompts.map (fun p =>
    let pid := rgetD p "id" (.str "unknown")
    let mk := fun (field msg : String) (v : PyValue) (sugg : String) =>
      (⟨"error", .str (pyToStr pid), field,
        msg ++ ", got " ++ pyTypeName v, some sugg⟩ : ValidationIssue)
    (match rget p "id" with
     | some v => if !isPyStr v then [mk "id" "ID must be a string" v "Convert ID to string format"] else []
     | Option.none => []) ++
    (match rget p "name" with
     | some v => if !isPyStr v then [mk "name" "Name must be a string" v "Convert name to string"] else []
     | Option.none => []) ++
    (match rget p "description" with
     | some v => if !isPyStr v then [mk "description" "Description must be a string" v "Convert description to string"] else []
     | Option.none => []) ++
    (match rget p "emoji" with
     | some v => if !isPyStr v then [mk "emoji" "Emoji must be a string" v "Use a string for emoji"] else []
     | Option.none => []) ++
    (match rget p "group" with
     | some v => if !isPyList v then [mk "group" "Group must be an array" v "Use array format: ['Category1', 'Category2']"] else []
     | Option.none => []) ++
    (match rget p "prompt" with
     | some v => if !isPyStr v then [mk "prompt" "Prompt must be a string" v "Convert prompt content to string"] else []
     | Option.none => []))).flatten

/-- The non-numeric-id error of `check_id_sequence`. -/
def digitErrIssue (s : String) : ValidationIssue :=
  ⟨"error", .str s, "id", "ID must be numeric string, got '" ++ s ++ "'",
   some "Use numeric values like '1', '2', '3'..."⟩

/-- The duplicate-id error of `check_id_sequence`. -/
def dupIssue (v : PyValue) : ValidationIssue :=
  ⟨"error", .str (pyToStr v), "id", "Duplicate ID found: '" ++ pyToStr v ++ "'",
   some "Assign unique sequential IDs"⟩

/-- The non-sequential-id warning of `check_id_sequence` at 1-based
position `i`. -/
def seqIssue (i : Nat) (s : String) : ValidationIssue :=
  ⟨"warning", .str s, "id",
   "ID is not sequential: expected '" ++ pyIntStr (i : Int) ++ "', got '" ++ s ++ "'",
   some "Use sequential IDs starting from '1'"⟩

/-- The loop of `PromptValidator.check_id_sequence`, carrying the 1-based
position and the `id_set` contents (as a list with `==`-membership).
A `None` id is skipped; a non-digit string id errors and skips the rest
of its iteration; an unhashable id raises from `pid in id_set`; otherwise
a duplicate errors, the id enters the set, and a string id differing from
the expected position warns. -/
def check_id_sequence_from : Nat → List PyValue → List Record →
    Except String (List ValidationIssue)
  | _, _, [] => pure []
  | i, seen, p :: ps =>
    match rgetD p "id" .none with
    | .none => check_id_sequence_from (i + 1) seen ps
    | .str s =>
      if !pyIsDigitStr s then do
        let rest ← check_id_sequence_from (i + 1) seen ps
        pure (digitErrIssue s :: rest)
      else do
        let pre :=
          (if seen.any (pyEq (.str s)) then [dupIssue (.str s)] else []) ++
          (if s != pyIntStr (i : Int) then [seqIssue i s] else [])
        let rest ← check_id_sequence_from (i + 1) (seen ++ [.str s]) ps
        pure (pre ++ rest)
    | .list _ => Except.error "TypeError: unhashable type: 'list'"
    | .dict _ => Except.error "TypeError: unhashable type: 'dict'"
    | v => do
      let pre := if seen.any (pyEq v) then [dupIssue v] else []
      let rest ← check_id_sequence_from (i + 1) (seen ++ [v]) ps
      pure (pre ++ rest)

/-- `PromptValidator.check_id_sequence`. -/
def check_id_sequence (prompts : List Record) : Except String (List ValidationIssue) :=
  check_id_sequence_from 1 [] prompts

/-- The emoji code-point ranges of `PromptValidator._looks_like_emoji`
(kept separate from the fixer's list, as in the source). -/
def validatorEmojiRanges : List (Nat × Nat) :=
  [(0x1F600, 0x1F64F), (0x1F300, 0x1F5FF), (0x1F680, 0x1F6FF),
   (0x1F1E0, 0x1F1FF), (0x2600, 0x26FF), (0x2700, 0x27BF),
   (0x1F900, 0x1F9FF), (0x1FA00, 0x1FA6F), (0x1FA70, 0x1FAFF),
   (0x231A, 0x23FF), (0x2B50, 0x2B55), (0x203C, 0x3299)]

/-- `any(start <= code <= end for start, end in emoji_ranges)` (validator). -/
def charInValidatorRanges (c : Char) : Bool :=
  validatorEmojiRanges.any (fun p => p.1 ≤ c.toNat && c.toNat ≤ p.2)

/-- Membership of a code point in the validator's ranges. -/
def codeInValidatorRanges (code : Nat) : Bool :=
  validatorEmojiRanges.any (fun p => p.1 ≤ code && code ≤ p.2)

/-- `PromptValidator._looks_like_emoji(text)`: scan the characters of the
iterable for the ranges; unlike the fixer's test there is no emptiness or
length guard.  Iterating a non-iterable raises. -/
def PromptValidator_looks_like_emoji : PyValue → Except String Bool
  | .str s => pure (s.data.any charInValidatorRanges)
  | .list l => anyOrdInRanges codeInValidatorRanges l
  | .dict d => anyOrdInRanges codeInValidatorRanges (d.map (fun p => PyValue.str p.1))
  | .none => Except.error "TypeError: 'NoneType' object is not iterable"
  | .bool _ => Except.error "TypeError: 'bool' object is not iterable"
  | .int _ => Except.error "TypeError: 'int' object is not iterable"

/-- The `emoji_suggestions` table of `_suggest_better_emoji`, in source
order. -/
def emoji_suggestions : List (String × List String) :=
  [("👨‍💼", ["pm", "product manager", "business", "strategy"]),
   ("👨‍💻", ["developer", "engineer", "coding", "programming", "software"]),
   ("✍️", ["writer", "writing", "copy", "content"]),
   ("🎨", ["design", "creative", "art", "ui", "ux"]),
   ("📊", ["analytic", "data", "metric", "analysis"]),
   ("🤖", ["assistant", "helper", "copilot", "ai"]),
   ("💬", ["chat", "support", "communication"]),
   ("📚", ["teacher", "education", "learning"]),
   ("💰", ["finance", "money", "trading"]),
   ("🔬", ["science", "research", "lab"])]

/-- `PromptValidator._suggest_better_emoji(desc, current)`: the first
table entry differing from the current emoji with a keyword contained in
the lowered description. -/
def PromptValidator_suggest_better_emoji (desc : String) (current : PyValue) :
    Option String :=
  let descLower := pyLower desc
  (emoji_suggestions.find? (fun p =>
    !pyEq (.str p.1) current &&
    p.2.any (fun kw => containsSub descLower.data kw.data))).map (fun p => p.1)

/-- `PromptValidator.check_emoji_validity` for one record. -/
def check_emoji_validity_one (verbose : Bool) (p : Record) :
    Except String (List ValidationIssue) := do
  let emoji := rgetD p "emoji" (.str "")
  let pid := rgetD p "id" (.str "unknown")
  let desc := rgetD p "description" (.str "")
  if !truthy emoji then
    pure [⟨"error", pid, "emoji", "Emoji is missing",
           some "Add a relevant emoji based on description"⟩]
  else do
    let looks ← PromptValidator_looks_like_emoji emoji
    let warnPart :=
      if !looks then
        [(⟨"warning", pid, "emoji", "'" ++ pyToStr emoji ++ "' may not be a valid emoji",
           some "Use a single emoji character"⟩ : ValidationIssue)]
      else []
    let infoPart ←
      if verbose && truthy desc then
        match desc with
        | .str ds =>
          (match PromptValidator_suggest_better_emoji ds emoji with
           | some s =>
             if !pyEq (.str s) emoji then
               pure [(⟨"info", pid, "emoji", "Current: " ++ pyToStr emoji,
                       some ("Consider: " ++ s)⟩ : ValidationIssue)]
             else pure []
           | Option.none => pure ([] : List ValidationIssue))
        | _ => Except.error "AttributeError: object has no attribute lower"
      else pure ([] : List ValidationIssue)
    pure (warnPart ++ infoPart)

/-- Monadic concatenation of per-record issue lists. -/
def exceptConcatMap {α : Type} (f : α → Except String (List ValidationIssue)) :
    List α → Except String (List ValidationIssue)
  | [] => pure []
  | x :: xs => do
    let h ← f x
    let t ← exceptConcatMap f xs
    pure (h ++ t)

/-- `PromptValidator.check_emoji_validity`. -/
def check_emoji_validity (verbose : Bool) (prompts : List Record) :
    Except String (List ValidationIssue) :=
  exceptConcatMap (check_emoji_validity_one verbose) prompts

/-- `PromptValidator.check_group_format` for one record. -/
def check_group_format_one (p : Record) : List ValidationIssue :=
  let pid := rgetD p "id" (.str "unknown")
  match rgetD p "group" .none with
  | .none => []
  | .str s =>
    [⟨"error", pid, "group", "Group is a string, should be array. Got: '" ++ s ++ "'",
      some ("Change to 'group': ['" ++ s ++ "']")⟩]
  | .list l =>
    (if l.isEmpty then
      [(⟨"error", pid, "group", "Group array is empty",
         some "Add at least one category: ['General']"⟩ : ValidationIssue)]
     else []) ++
    ((l.enum.map (fun gi =>
      match gi.2 with
      | .str s =>
        if pyStrip s == "" then
          [(⟨"warning", pid, "group", "group[" ++ pyIntStr (gi.1 : Int) ++ "] is an empty string",
             some "Remove empty group entries"⟩ : ValidationIssue)]
        else []
      | g =>
        [(⟨"warning", pid, "group",
           "group[" ++ pyIntStr (gi.1 : Int) ++ "] is not a string: " ++ pyToStr g,
           some "Use string values for group categories"⟩ : ValidationIssue)])).flatten)
  | _ => []

/-- `PromptValidator.check_group_format`. -/
def check_group_format (prompts : List Record) : List ValidationIssue :=
  (prompts.map check_group_format_one).flatten

/-- Lazy group of `re.match(r"^---\s*\n(.*?)\n---", content, re.DOTALL)`:
the characters before the first `\n---`. -/
def findNlDashes : List Char → Option (List Char)
  | '\n' :: '-' :: '-' :: '-' :: _ => some []
  | c :: cs =>
    (match findNlDashes cs with
     | some g => some (c :: g)
     | Option.none => Option.none)
  | [] => Option.none

/-- The frontmatter probe of `check_prompt_content`:
`re.match(r"^---\s*\n(.*?)\n---", content, re.DOTALL)`. -/
def promptFrontmatterMatch (content : List Char) : Option (List Char) :=
  match content with
  | '-' :: '-' :: '-' :: rest => firstSome (wsNlSuffixes rest) findNlDashes
  | _ => Option.none

/-- `PromptValidator.check_prompt_content` for one record. -/
def check_prompt_content_one (p : Record) : Except String (List ValidationIssue) := do
  let content := rgetD p "prompt" (.str "")
  let pid := rgetD p "id" (.str "unknown")
  if !truthy content then
    pure [⟨"error", pid, "prompt", "Prompt content is empty",
           some "Add the actual prompt content including YAML frontmatter"⟩]
  else
    match content with
    | .str s =>
      let warnPart :=
        if !listIsPrefix "---".data (pyStrip s).data then
          [(⟨"warning", pid, "prompt", "Prompt may be missing YAML frontmatter",
             some "Add YAML frontmatter starting with '---'"⟩ : ValidationIssue)]
        else []
      let infoPart :=
        if containsSub s.data "---".data then
          match promptFrontmatterMatch s.data with
          | some yaml =>
            let ytext := String.mk yaml
            (if !strContainsSub ytext "description:" then
              [(⟨"info", pid, "prompt", "YAML frontmatter missing 'description' field",
                 some "Add 'description: <brief description>'"⟩ : ValidationIssue)]
             else []) ++
            (if !strContainsSub ytext "category:" && !strContainsSub ytext "group:" then
              [(⟨"info", pid, "prompt", "YAML frontmatter missing 'category' field",
                 some "Add 'category: [CategoryName]'"⟩ : ValidationIssue)]
             else [])
          | Option.none => []
        else []
      pure (warnPart ++ infoPart)
    | _ => Except.error "AttributeError: object has no attribute strip"

/-- `PromptValidator.check_prompt_content`. -/
def check_prompt_content (prompts : List Record) : Except String (List ValidationIssue) :=
  exceptConcatMap check_prompt_content_one prompts

/-- The check sequence of `PromptValidator.validate_file` on an in-memory
collection: all six checks in source order, accumulating one report.
An uncaught exception in a check aborts validation, as in the source. -/
def PromptValidator_validate (verbose : Bool) (prompts : List Record) :
    Except String (List ValidationIssue) := do
  let i3 ← check_id_sequence prompts
  let i4 ← check_emoji_validity verbose prompts
  let i6 ← check_prompt_content prompts
  pure (check_required_fields prompts ++ check_field_types prompts ++ i3 ++ i4 ++
        check_group_format prompts ++ i6)

/-- Number of error-level issues in a report (the quantity that decides
pass/fail in `print_report` / `main`). -/
def countErrors (issues : List ValidationIssue) : Nat :=
  (issues.filter (fun i => i.level == "error")).length

/-!
### compile.py — frontmatter parsing

`simple_yaml_parse` makes two passes over the lines: a scalar pass and a
list-aware pass, merged with the list-aware value winning when not `None`.
-/

/-- Python `value[1:-1]`. -/
def dropFirstLast (s : String) : String :=
  String.mk ((s.data.drop 1).dropLast)

/-- The scalar-value interpretation of the first pass of
`simple_yaml_parse` for a non-empty trimmed value: quote stripping,
boolean literals, digit strings to integers, inline `#` comments. -/
def yamlScalarValue (value : String) : PyValue :=
  if listIsPrefix "\"".data value.data && listIsSuffix "\"".data value.data then
    .str (dropFirstLast value)
  else if listIsPrefix "'".data value.data && listIsSuffix "'".data value.data then
    .str (dropFirstLast value)
  else if pyLower value == "true" then .bool true
  else if pyLower value == "false" then .bool false
  else if pyIsDigitStr value then .int (decimalToNat value.data)
  else if strContainsSub value "#" then
    .str (pyStrip (String.mk (splitFirst '#' value.data).1))
  else .str value

/-- First pass of `simple_yaml_parse`: skip blanks and comments, record
each `key: value` line with a non-empty value (the `- ` list-item branch
of this pass is an explicit no-op in the source). -/
def yamlPass1 : List String → Record → Record
  | [], acc => acc
  | line :: rest, acc =>
    let stripped := pyStrip line
    if stripped == "" || listIsPrefix "#".data stripped.data then yamlPass1 rest acc
    else if strContainsSub line ":" then
      let kv := splitFirst ':' line.data
      let key := pyStrip (String.mk kv.1)
      let value := pyStrip (String.mk kv.2)
      if value == "" then yamlPass1 rest acc
      else yamlPass1 rest (rset acc key (yamlScalarValue value))
    else yamlPass1 rest acc

/-- Second (list-aware) pass of `simple_yaml_parse`: an unindented line
with a colon opens a key (value `None`); a `- ` item appends to that
key's list, promoting `None` to a one-element list; any other line with
a colon while the key is still `None` becomes its scalar value. -/
def yamlPass2 : List String → Option String → Record → Record
  | [], _, acc => acc
  | line :: rest, ck, acc =>
    let stripped := pyStrip line
    if strContainsSub line ":" && !listIsPrefix " ".data line.data then
      let key := pyStrip (String.mk (splitFirst ':' line.data).1)
      yamlPass2 rest (some key) (rset acc key .none)
    else
      match ck with
      | some k =>
        if k != "" && listIsPrefix "- ".data stripped.data then
          let value :=
            pyStripChar '\'' (pyStripChar '"' (pyStrip (String.mk (stripped.data.drop 2))))
          match rget acc k with
          | some .none => yamlPass2 rest ck (rset acc k (.list [.str value]))
          | some (.list l) => yamlPass2 rest ck (rset acc k (.list (l ++ [.str value])))
          | _ => yamlPass2 rest ck acc
        else
          match rget acc k with
          | some .none =>
            if k != "" && strContainsSub line ":" then
              let value :=
                pyStripChar '\'' (pyStripChar '"' (pyStrip (String.mk (splitFirst ':' line.data).2)))
              yamlPass2 rest ck (rset acc k (.str value))
            else yamlPass2 rest ck acc
          | _ => yamlPass2 rest ck acc
      | Option.none => yamlPass2 rest ck acc

/-- The merge at the end of `simple_yaml_parse`: every key the list-aware
pass resolved to a non-`None` value overrides the scalar pass. -/
def yamlMerge (scalars rwl : Record) : Record :=
  List.foldl (fun acc kv =>
    match kv.2 with
    | PyValue.none => acc
    | v => rset acc kv.1 v) scalars rwl

/-- `simple_yaml_parse(text)`. -/
def simple_yaml_parse (text : String) : Record :=
  let lines := (splitOnChar '\n' text.data).map String.mk
  yamlMerge (yamlPass1 lines []) (yamlPass2 lines Option.none [])

/-- `parse_yaml_frontmatter(content)`: on a match, the parsed mapping and
the *reconstructed* full text `f"---\n{yaml_text}\n---\n\n{body}".strip()`;
otherwise an empty mapping and the content unchanged. -/
def parse_yaml_frontmatter (content : String) : Record × String :=
  match frontmatterMatch content.data with
  | some (y, b) =>
    (simple_yaml_parse (String.mk y),
     pyStrip ("---\n" ++ String.mk y ++ "\n---\n\n" ++ String.mk b))
  | Option.none => ([], content)

/-!
### compile.py — the emoji pattern table

`EMOJI_PATTERNS` maps regexes to emoji; `generate_emoji` returns the
emoji of the first pattern found by `re.search` in the search text.
Each regex is a group of alternatives, where an alternative is a literal
(optional suffixes such as `debug(?:ging)?` reduce to their mandatory
prefix, and spelled-out alternations such as `pric(?:ing|e)` are listed
as two literals), a pair of literals joined by `\s*`, or a pair joined
by `[-\s]?`.
-/

/-- One alternative of an `EMOJI_PATTERNS` regex. -/
inductive RAlt where
  | lit : String → RAlt
  | gap : String → String → RAlt
  | sep : String → String → RAlt

/-- After a matched first literal: match `\s*` then the second literal
(existence over all whitespace-run lengths). -/
def afterGapMatch (s2 : List Char) : List Char → Bool
  | [] => listIsPrefix s2 []
  | c :: cs => listIsPrefix s2 (c :: cs) || (pyIsSpace c && afterGapMatch s2 cs)

/-- `s1 \s* s2` matches somewhere in `t`. -/
def containsGap (t s1 s2 : List Char) : Bool :=
  match t with
  | [] => listIsPrefix s1 [] && afterGapMatch s2 []
  | _ :: rest =>
    (listIsPrefix s1 t && afterGapMatch s2 (t.drop s1.length)) || containsGap rest s1 s2

/-- `s1 [-\s]? s2` matches somewhere in `t`. -/
def containsSep (t s1 s2 : List Char) : Bool :=
  match t with
  | [] => listIsPrefix s1 [] && listIsPrefix s2 []
  | _ :: rest =>
    (listIsPrefix s1 t &&
      (let v := t.drop s1.length
       listIsPrefix s2 v ||
       (match v with
        | c :: cs => (c == '-' || pyIsSpace c) && listIsPrefix s2 cs
        | [] => false))) || containsSep rest s1 s2

/-- `re.search` of one alternative in `t`. -/
def altMatches (t : List Char) : RAlt → Bool
  | .lit s => containsSub t s.data
  | .gap a b => containsGap t a.data b.data
  | .sep a b => containsSep t a.data b.data

/-- `DEFAULT_EMOJI` of `compile.py` (a genuine 🔧, unlike `fix.py`). -/
def DEFAULT_EMOJI_compile : String := "🔧"

/-- The `EMOJI_PATTERNS` table of `compile.py`, in source order. -/
def EMOJI_PATTERNS : List (List RAlt × String) :=
  [ -- r"(product\s*manager|pm|business|strategy|roadmap|pric(?:ing|e)|market(?:ing)?)"
   ([.gap "product" "manager", .lit "pm", .lit "business", .lit "strategy",
     .lit "roadmap", .lit "pricing", .lit "price", .lit "market"], "👨‍💼"),
   -- r"(startup|founder|entrepreneur|ceo|cto|leadership)"
   ([.lit "startup", .lit "founder", .lit "entrepreneur", .lit "ceo", .lit "cto",
     .lit "leadership"], "🚀"),
   -- r"(developer|engineer|coding|programming|software|debug(?:ging)?|code)"
   ([.lit "developer", .lit "engineer", .lit "coding", .lit "programming",
     .lit "software", .lit "debug", .lit "code"], "👨‍💻"),
   -- r"(frontend|backend|full[-\s]?stack|devops|api|rest|graphql)"
   ([.lit "frontend", .lit "backend", .sep "full" "stack", .lit "devops",
     .lit "api", .lit "rest", .lit "graphql"], "💻"),
   -- r"(python|javascript|typescript|java|golang|rust|cpp|c\+\+)"
   ([.lit "python", .lit "javascript", .lit "typescript", .lit "java",
     .lit "golang", .lit "rust", .lit "cpp", .lit "c++"], "🐍"),
   -- r"(design(?:er)?|creative|art|ui|ux|figma|sketch|visual)"
   ([.lit "design", .lit "creative", .lit "art", .lit "ui", .lit "ux",
     .lit "figma", .lit "sketch", .lit "visual"], "🎨"),
   -- r"(writer|writing|copy(?:writing)?|content|blog|article)"
   ([.lit "writer", .lit "writing", .lit "copy", .lit "content", .lit "blog",
     .lit "article"], "✍️"),
   -- r"(video|photo|image|media|editing|film)"
   ([.lit "video", .lit "photo", .lit "image", .lit "media", .lit "editing",
     .lit "film"], "🎬"),
   -- r"(analytic|data|metric|statistics|insight|report|dashboard)"
   ([.lit "analytic", .lit "data", .lit "metric", .lit "statistics",
     .lit "insight", .lit "report", .lit "dashboard"], "📊"),
   -- r"(sql|database|query|etl|pipeline|warehouse)"
   ([.lit "sql", .lit "database", .lit "query", .lit "etl", .lit "pipeline",
     .lit "warehouse"], "🗄️"),
   -- r"(machine\s*learning|ml|ai|artificial\s*intelligence|model|training)"
   ([.gap "machine" "learning", .lit "ml", .lit "ai",
     .gap "artificial" "intelligence", .lit "model", .lit "training"], "🤖"),
   -- r"(chat|support|communication|customer|service|help)"
   ([.lit "chat", .lit "support", .lit "communication", .lit "customer",
     .lit "service", .lit "help"], "💬"),
   -- r"(email|newsletter|marketing|outreach|campaign)"
   ([.lit "email", .lit "newsletter", .lit "marketing", .lit "outreach",
     .lit "campaign"], "📧"),
   -- r"(teacher|education|learning|tutorial|course|mentor|coach)"
   ([.lit "teacher", .lit "education", .lit "learning", .lit "tutorial",
     .lit "course", .lit "mentor", .lit "coach"], "📚"),
   -- r"(student|academic|research|paper|thesis|study)"
   ([.lit "student", .lit "academic", .lit "research", .lit "paper",
     .lit "thesis", .lit "study"], "🎓"),
   -- r"(finance|money|trading|investment|crypto|bitcoin|stock)"
   ([.lit "finance", .lit "money", .lit "trading", .lit "investment",
     .lit "crypto", .lit "bitcoin", .lit "stock"], "💰"),
   -- r"(accounting|budget|invoice|payment)"
   ([.lit "accounting", .lit "budget", .lit "invoice", .lit "payment"], "💵"),
   -- r"(science|research|lab|experiment|discovery|biology|chemistry)"
   ([.lit "science", .lit "research", .lit "lab", .lit "experiment",
     .lit "discovery", .lit "biology", .lit "chemistry"], "🔬"),
   -- r"(math|physics|calculation|formula|equation)"
   ([.lit "math", .lit "physics", .lit "calculation", .lit "formula",
     .lit "equation"], "🧮"),
   -- r"(assistant|helper|copilot|aid|tool|utility)"
   ([.lit "assistant", .lit "helper", .lit "copilot", .lit "aid", .lit "tool",
     .lit "utility"], "🤖"),
   -- r"(automation|workflow|script|batch|process)"
   ([.lit "automation", .lit "workflow", .lit "script", .lit "batch",
     .lit "process"], "⚙️"),
   -- r"(security|privacy|encrypt|protect|auth)"
   ([.lit "security", .lit "privacy", .lit "encrypt", .lit "protect",
     .lit "auth"], "🔒"),
   -- r"(document|pdf|word|excel|spreadsheet|presentation)"
   ([.lit "document", .lit "pdf", .lit "word", .lit "excel",
     .lit "spreadsheet", .lit "presentation"], "📄"),
   -- r"(file|folder|directory|storage|backup|sync)"
   ([.lit "file", .lit "folder", .lit "directory", .lit "storage",
     .lit "backup", .lit "sync"], "📁"),
   -- r"(web|website|html|css|browser|internet|url|link)"
   ([.lit "web", .lit "website", .lit "html", .lit "css", .lit "browser",
     .lit "internet", .lit "url", .lit "link"], "🌐"),
   -- r"(seo|search|google|index|ranking)"
   ([.lit "seo", .lit "search", .lit "google", .lit "index", .lit "ranking"], "🔍"),
   -- r"(general|default|universal|common)"
   ([.lit "general", .lit "default", .lit "universal", .lit "common"], "🔧")]

/-- The scan loop of `generate_emoji`: the emoji of the first pattern
matching the search text. -/
def scanEmojiPatterns (text : String) : Option String :=
  (EMOJI_PATTERNS.find? (fun p => p.1.any (altMatches text.data))).map (fun p => p.2)

/-- `generate_emoji(description, filename)`.  The source computes
`(description or "" + " " + filename).lower()`, which by Python operator
precedence is `description or (" " + filename)`: a truthy description is
used alone (raising `AttributeError` when it is not a string) and the
filename only enters the search text when the description is falsy. -/
def generate_emoji (description : PyValue) (filename : String) :
    Except String String := do
  let text ←
    if truthy description then
      match description with
      | .str s => pure (pyLower s)
      | _ => Except.error "AttributeError: object has no attribute lower"
    else pure (pyLower (" " ++ filename))
  pure ((scanEmojiPatterns text).getD DEFAULT_EMOJI_compile)

/-- `normalize_category(category)`: `None` and non-sequence values give
`["General"]`, a string wraps to a singleton, a list keeps the `str` of
its truthy elements (with no fallback when everything is dropped). -/
def normalize_category : PyValue → List String
  | .none => ["General"]
  | .str s => [s]
  | .list l =>
    l.filterMap (fun c => if truthy c then some (pyToStr c) else Option.none)
  | _ => ["General"]

/-- `compile_file` on in-memory content (the file read and error logging
around it are I/O collaborators): frontmatter extraction, field defaults,
category normalization, emoji selection (`frontmatter.get("emoji") or
generate_emoji(...)`) and record assembly in source key order, with the
id left blank for the batch pass. -/
def compile_file (content : String) (stem : String) : Except String Record := do
  let fm := parse_yaml_frontmatter content
  let frontmatter := fm.1
  let fullContent := fm.2
  let description := rgetD frontmatter "description" (.str "")
  let category := rgetD frontmatter "category" (rgetD frontmatter "group" .none)
  let group := normalize_category category
  let emojiRaw := rgetD frontmatter "emoji" .none
  let emoji ←
    if truthy emojiRaw then pure emojiRaw
    else do
      let e ← generate_emoji description stem
      pure (PyValue.str e)
  pure [("id", .str ""), ("name", .str stem), ("description", description),
        ("emoji", emoji), ("group", .list (group.map PyValue.str)),
        ("prompt", .str fullContent)]

/-- The id-assignment pass at the end of `compile_directory`:
`prompt["id"] = str(idx)` for 1-based `idx` in collection order. -/
def assignIds (prompts : List Record) : List Record :=
  prompts.enum.map (fun p => rset p.2 "id" (.str (pyIntStr ((p.1 : Int) + 1))))

/-!
### Auxiliary definitions for the theorems
-/

/-- The `id_set` contents accumulated by `check_id_sequence_from` after
processing a list of records: ids enter the set unless they are `None`,
non-digit strings (which `continue` before the insert), or unhashable
(which raise; the value returned here is then irrelevant). -/
def seenAfter (seen : List PyValue) : List Record → List PyValue
  | [] => seen
  | p :: ps =>
    match rgetD p "id" .none with
    | .none => seenAfter seen ps
    | .str s =>
      if !pyIsDigitStr s then seenAfter seen ps
      else seenAfter (seen ++ [.str s]) ps
    | .list _ => seenAfter seen ps
    | .dict _ => seenAfter seen ps
    | v => seenAfter (seen ++ [v]) ps

/-- An id value is hashable (Python raises `TypeError` from
`pid in id_set` for lists and dictionaries). -/
def idHashable (r : Record) : Bool :=
  match rgetD r "id" .none with
  | .list _ => false
  | .dict _ => false
  | _ => true

/-- The duplicate-id error message for id `d`. -/
def dupMsg (d : String) : String :=
  "Duplicate ID found: '" ++ d ++ "'"

/-- The non-sequential-id warning message for position `p` and id `d`. -/
def seqMsg (p : Nat) (d : String) : String :=
  "ID is not sequential: expected '" ++ pyIntStr (p : Int) ++ "', got '" ++ d ++ "'"

/-- A record with every field well-formed except the emoji, which is a
list containing a single emoji character. -/
def emojiListRecord : Record :=
  [("id", .str "1"), ("name", .str "x"), ("description", .str ""),
   ("emoji", .list [.str "🔧"]), ("group", .list [.str "General"]),
   ("prompt", .str "---\ndescription: d\ncategory:\n  - General\n---\n\nbody")]

/-- A record whose group is the empty string. -/
def strGroupRecord : Record :=
  [("id", .str "1"), ("name", .str "x"), ("description", .str ""),
   ("emoji", .str "🔧"), ("group", .str ""), ("prompt", .str "---\nd\n---\n\nx")]

/-- `strGroupRecord` after one repair pass: the group became `[""]`. -/
def strGroupRecordFixed : Record :=
  [("id", .str "1"), ("name", .str "x"), ("description", .str ""),
   ("emoji", .str "🔧"), ("group", .list [.str ""]), ("prompt", .str "---\nd\n---\n\nx")]

/-- A fully well-formed record, fixed by the repair pass to itself. -/
def healthyRecord : Record :=
  [("id", .str "1"), ("name", .str "a"), ("description", .str ""),
   ("emoji", .str "🔧"), ("group", .list [.str "G"]), ("prompt", .str "---\nd\n---\n\nx")]

/-- A well-formed record bearing a chosen id. -/
def recordWithId (i : String) : Record :=
  [("id", .str i), ("name", .str "n"), ("description", .str ""),
   ("emoji", .str "🔧"), ("group", .list [.str "G"]), ("prompt", .str "---\nd\n---\n\nx")]

/-- The id value of a record as `check_id_sequence` reads it. -/
def getId (r : Record) : PyValue :=
  rgetD r "id" .none

/-- Id kinds that reach the duplicate-membership check of
`check_id_sequence` (digit strings, ints, bools; `None` and non-digit
strings `continue` first, unhashable kinds raise). -/
def checksDup : PyValue → Bool
  | .str s => pyIsDigitStr s
  | .int _ => true
  | .bool _ => true
  | _ => false

/-- The id a record contributes to `id_set`, when any. -/
def enteredIdF (r : Record) : Option PyValue :=
  match rgetD r "id" .none with
  | .str s => if pyIsDigitStr s then some (.str s) else Option.none
  | .int n => some (.int n)
  | .bool b => some (.bool b)
  | _ => Option.none

/-- The ids a run of `check_id_sequence` inserts into `id_set`. -/
def enteredIds (xs : List Record) : List PyValue :=
  xs.filterMap enteredIdF

/-- An issue is the duplicate-id error for id `d`. -/
def isDupErrorFor (d : String) (it : ValidationIssue) : Bool :=
  it.level == "error" && it.message == dupMsg d

/-- The canonically formed document used as `C4`'s concrete input. -/
def c4Content : String :=
  String.mk ("---\n".data ++ ('d' :: "escription: d".data) ++ "\n---\n\n".data ++ "body.".data)

def c4Rec : Record :=
  [("id", .str ""), ("name", .str "x"), ("description", .str "d"),
   ("emoji", .str "🔧"), ("group", .list [.str "General"]),
   ("prompt", .str c4Content)]


theorem pyIsSpace_newline : pyIsSpace '\n' = true := by decide

theorem beq_newline_false_of_nonspace (c : Char) (h : pyIsSpace c = false) :
    (c == '\n') = false := by
  cases hc : c == '\n'
  · rfl
  · exact absurd (eq_of_beq hc ▸ h) (by simp [pyIsSpace_newline])

theorem wsNlSuffixes_nonspace_head (c : Char) (cs : List Char)
    (h : pyIsSpace c = false) : wsNlSuffixes (c :: cs) = [] := by
  simp [wsNlSuffixes, h, beq_newline_false_of_nonspace c h]

theorem containsSub_cons_false {t : List Char} {c : Char} {s : List Char}
    (h : containsSub (c :: t) s = false) : containsSub t s = false := by
  simp [containsSub] at h
  exact h.2

theorem listIsPrefix_cons_false {t : List Char} {c : Char} {s : List Char}
    (h : containsSub (c :: t) s = false) : listIsPrefix s (c :: t) = false := by
  simp [containsSub] at h
  exact h.1

/-- Controlled unfolding of `findCloseDelim` on a cons cell. -/
theorem findCloseDelim_cons (c : Char) (cs : List Char) :
    findCloseDelim (c :: cs) =
      (if c == '\n' && listIsPrefix ['-', '-', '-'] cs then
        match wsNlSuffixes (cs.drop 3) with
        | g2 :: _ => some ([], g2)
        | [] =>
          match findCloseDelim cs with
          | some (g1, g2) => some (c :: g1, g2)
          | Option.none => Option.none
      else
        match findCloseDelim cs with
        | some (g1, g2) => some (c :: g1, g2)
        | Option.none => Option.none) := rfl

/-- Key backtracking lemma: when `y` contains no `\n---` and the close
delimiter `\n---` followed by `z` yields a greedy group 2, the lazy scan
over `y ++ \n--- ++ z` captures exactly `y`. -/
theorem findCloseDelim_append (y : List Char) (z g2 : List Char) (gs : List (List Char))
    (hy : containsSub y ('\n' :: '-' :: '-' :: '-' :: []) = false)
    (hz : wsNlSuffixes z = g2 :: gs) :
    findCloseDelim (y ++ '\n' :: '-' :: '-' :: '-' :: z) = some (y, g2) := by
  induction y with
  | nil =>
    rw [List.nil_append, findCloseDelim_cons]
    simp [listIsPrefix, hz]
  | cons c y' ih =>
    have hy' : containsSub y' ('\n' :: '-' :: '-' :: '-' :: []) = false :=
      containsSub_cons_false hy
    have hpre : listIsPrefix ('\n' :: '-' :: '-' :: '-' :: []) (c :: y') = false :=
      listIsPrefix_cons_false hy
    have ihe := ih hy'
    have hguard :
        (c == '\n' && listIsPrefix ['-', '-', '-'] (y' ++ '\n' :: '-' :: '-' :: '-' :: z)) = false := by
      cases hc : c == '\n'
      · rfl
      · have hc' := eq_of_beq hc
        subst hc'
        match y' with
        | [] => simp [listIsPrefix]
        | [d] => simp [listIsPrefix]
        | [d, e] => simp [listIsPrefix]
        | d :: e :: f :: y'' =>
          simp only [List.cons_append, listIsPrefix, Bool.true_and]
          simp only [listIsPrefix] at hpre
          simp only [beq_self_eq_true, Bool.true_and] at hpre
          exact hpre
    rw [List.cons_append, findCloseDelim_cons, hguard]
    simp only [Bool.false_eq_true, if_false, ihe]

/-- `str.strip()` is the identity on a list whose first and last
characters are not whitespace. -/
theorem dropWhile_id_of_head (p : Char → Bool) (l : List Char)
    (h : ∀ c, l.head? = some c → p c = false) :
    l.dropWhile p = l := by
  cases l with
  | nil => rfl
  | cons c cs =>
    have hc := h c rfl
    simp [List.dropWhile, hc]

theorem pyStripList_id (l : List Char)
    (hh : ∀ c, l.head? = some c → pyIsSpace c = false)
    (hl : ∀ c, l.getLast? = some c → pyIsSpace c = false) :
    pyStripList l = l := by
  unfold pyStripList
  rw [dropWhile_id_of_head pyIsSpace l hh]
  rw [dropWhile_id_of_head pyIsSpace l.reverse (fun c hc => hl c (by rwa [List.head?_reverse] at hc))]
  exact List.reverse_reverse l

theorem frontmatterMatch_dashes (rest : List Char) :
    frontmatterMatch ('-' :: '-' :: '-' :: rest) =
      firstSome (wsNlSuffixes rest) findCloseDelim := rfl

/-- Controlled unfolding of `wsNlSuffixes` on a cons cell. -/
theorem wsNlSuffixes_cons (c : Char) (cs : List Char) :
    wsNlSuffixes (c :: cs) =
      (if c == '\n' then
        (if pyIsSpace c then wsNlSuffixes cs else []) ++ [cs]
      else (if pyIsSpace c then wsNlSuffixes cs else [])) := rfl

/-- `wsNlSuffixes` after a newline prepends the full-consumption split. -/
theorem wsNlSuffixes_newline (cs : List Char) :
    wsNlSuffixes ('\n' :: cs) = wsNlSuffixes cs ++ [cs] := by
  rw [wsNlSuffixes_cons]
  norm_num [pyIsSpace_newline]

theorem wsNlSuffixes_b (b : List Char) (hbne : b ≠ [])
    (hbh : ∀ c, b.head? = some c → pyIsSpace c = false) :
    wsNlSuffixes ('\n' :: '\n' :: b) = [b, '\n' :: b] := by
  have hb : wsNlSuffixes b = [] := by
    cases b with
    | nil => exact absurd rfl hbne
    | cons cb bs => exact wsNlSuffixes_nonspace_head cb bs (hbh cb rfl)
  rw [wsNlSuffixes_newline, wsNlSuffixes_newline, hb]
  rfl

/-- The frontmatter regex on a canonical document
`---\n<meta>\n---\n\n<body>` recovers exactly the meta block and body,
when the meta starts with a non-space character and contains no line
starting with `---`, and the body starts with a non-space character. -/
theorem frontmatterMatch_canonical (cy : Char) (ys b : List Char)
    (hcy : pyIsSpace cy = false)
    (hnod : containsSub (cy :: ys) ('\n' :: '-' :: '-' :: '-' :: []) = false)
    (hbne : b ≠ [])
    (hbh : ∀ c, b.head? = some c → pyIsSpace c = false) :
    frontmatterMatch
      ('-' :: '-' :: '-' :: '\n' :: ((cy :: ys) ++ '\n' :: '-' :: '-' :: '-' :: ('\n' :: '\n' :: b))) =
      some (cy :: ys, b) := by
  rw [frontmatterMatch_dashes]
  have h2 : wsNlSuffixes ((cy :: ys) ++ '\n' :: '-' :: '-' :: '-' :: ('\n' :: '\n' :: b)) = [] := by
    rw [List.cons_append]
    exact wsNlSuffixes_nonspace_head cy _ hcy
  rw [wsNlSuffixes_newline, h2, List.nil_append]
  have h3 := findCloseDelim_append (cy :: ys) ('\n' :: '\n' :: b) b ['\n' :: b] hnod
    (wsNlSuffixes_b b hbne hbh)
  unfold firstSome
  rw [h3]

example (a b : String) : (a ++ b).data = a.data ++ b.data := String.data_append a b

/-- `parse_yaml_frontmatter` on a canonical document reconstructs the
document itself as the full content. -/
theorem parse_canonical (cy : Char) (ys b : List Char)
    (hcy : pyIsSpace cy = false)
    (hnod : containsSub (cy :: ys) ('\n' :: '-' :: '-' :: '-' :: []) = false)
    (hbne : b ≠ [])
    (hbh : ∀ c, b.head? = some c → pyIsSpace c = false)
    (hbl : ∀ c, b.getLast? = some c → pyIsSpace c = false) :
    parse_yaml_frontmatter
      (String.mk ('-' :: '-' :: '-' :: '\n' :: ((cy :: ys) ++ '\n' :: '-' :: '-' :: '-' :: ('\n' :: '\n' :: b)))) =
      (simple_yaml_parse (String.mk (cy :: ys)),
       String.mk ('-' :: '-' :: '-' :: '\n' :: ((cy :: ys) ++ '\n' :: '-' :: '-' :: '-' :: ('\n' :: '\n' :: b)))) := by
  unfold parse_yaml_frontmatter
  have hfm := frontmatterMatch_canonical cy ys b hcy hnod hbne hbh
  have hdata : (String.mk ('-' :: '-' :: '-' :: '\n' :: ((cy :: ys) ++ '\n' :: '-' :: '-' :: '-' :: ('\n' :: '\n' :: b)))).data
      = '-' :: '-' :: '-' :: '\n' :: ((cy :: ys) ++ '\n' :: '-' :: '-' :: '-' :: ('\n' :: '\n' :: b)) := rfl
  have hcat : ("---\n" ++ String.mk (cy :: ys) ++ "\n---\n\n" ++ String.mk b).data
      = '-' :: '-' :: '-' :: '\n' :: ((cy :: ys) ++ '\n' :: '-' :: '-' :: '-' :: ('\n' :: '\n' :: b)) := by
    simp [String.data_append]
  have hstrip : pyStrip ("---\n" ++ String.mk (cy :: ys) ++ "\n---\n\n" ++ String.mk b)
      = String.mk ('-' :: '-' :: '-' :: '\n' :: ((cy :: ys) ++ '\n' :: '-' :: '-' :: '-' :: ('\n' :: '\n' :: b))) := by
    unfold pyStrip
    rw [hcat]
    congr 1
    apply pyStripList_id
    · intro c hc
      simp at hc
      rw [← hc]
      decide
    · intro c hc
      have hre : ('-' :: '-' :: '-' :: '\n' :: ((cy :: ys) ++ '\n' :: '-' :: '-' :: '-' :: ('\n' :: '\n' :: b)))
          = (('-' :: '-' :: '-' :: '\n' :: (cy :: ys)) ++ ('\n' :: '-' :: '-' :: '-' :: '\n' :: '\n' :: [])) ++ b := by
        simp
      rw [hre] at hc
      rw [List.getLast?_append_of_ne_nil _ hbne] at hc
      exact hbl c hc
  rw [hdata, hfm]
  show (simple_yaml_parse (String.mk (cy :: ys)),
        pyStrip ("---\n" ++ String.mk (cy :: ys) ++ "\n---\n\n" ++ String.mk b)) = _
  rw [hstrip]

/-- The prompt field of any successfully compiled record is the full
content returned by the frontmatter parse. -/
theorem compile_file_prompt (content stem : String) (rec : Record)
    (h : compile_file content stem = Except.ok rec) :
    rget rec "prompt" = some (.str (parse_yaml_frontmatter content).2) := by
  unfold compile_file at h
  by_cases ht : truthy (rgetD (parse_yaml_frontmatter content).1 "emoji" .none)
  · simp only [ht, if_true, pure, Except.pure, bind, Except.bind] at h
    cases h
    rfl
  · simp only [ht, if_false, Bool.false_eq_true, bind, Except.bind] at h
    cases hg : generate_emoji (rgetD (parse_yaml_frontmatter content).1 "description" (.str "")) stem with
    | error e => rw [hg] at h; cases h
    | ok e =>
      rw [hg] at h
      simp only [pure, Except.pure] at h
      cases h
      rfl

/-- Claim C4 (amended): for a document whose frontmatter block is canonically
formed — the metadata block starts with a non-whitespace character, holds no
embedded newline-dashes delimiter, and the body is nonempty with
non-whitespace first and last characters — the compiled record stores the
original document text verbatim in its `prompt` field. (The unamended claim
fails: `compile_file` rebuilds the text with a blank line after the closing
delimiter, see the counterexample.) -/
theorem C4_prompt_verbatim_canonical (cy : Char) (ys b : List Char) (stem : String) (rec : Record)
    (hcy : pyIsSpace cy = false)
    (hnod : containsSub (cy :: ys) ('\n' :: '-' :: '-' :: '-' :: []) = false)
    (hbne : b ≠ [])
    (hbh : ∀ c, b.head? = some c → pyIsSpace c = false)
    (hbl : ∀ c, b.getLast? = some c → pyIsSpace c = false)
    (hok : compile_file (String.mk ("---\n".data ++ (cy :: ys) ++ "\n---\n\n".data ++ b)) stem
           = Except.ok rec) :
    rget rec "prompt" =
      some (.str (String.mk ("---\n".data ++ (cy :: ys) ++ "\n---\n\n".data ++ b))) := by
  have hshape : String.mk ("---\n".data ++ (cy :: ys) ++ "\n---\n\n".data ++ b)
      = String.mk ('-' :: '-' :: '-' :: '\n' :: ((cy :: ys) ++ '\n' :: '-' :: '-' :: '-' :: ('\n' :: '\n' :: b))) := by
    congr 1
    simp
  rw [hshape] at hok ⊢
  have hp := compile_file_prompt _ stem rec hok
  rw [parse_canonical cy ys b hcy hnod hbne hbh hbl] at hp
  exact hp

theorem C4_prompt_verbatim_canonical_witness :
    pyIsSpace 'd' = false ∧
    compile_file c4Content "x" = Except.ok c4Rec ∧
    rget c4Rec "prompt" = some (.str c4Content) :=
  ⟨by decide, rfl,
   C4_prompt_verbatim_canonical 'd' "escription: d".data "body.".data "x" c4Rec
     (by decide) (by decide) (by decide)
     (fun c hc => by
       rw [show ("body.".data.head? = some 'b') from rfl] at hc
       cases hc
       decide)
     (fun c hc => by
       rw [show ("body.".data.getLast? = some '.') from rfl] at hc
       cases hc
       decide)
     rfl⟩

/-- Claim C8 (amended): the fixer's `_is_valid_emoji` and the validator's
`_looks_like_emoji` agree on every string of length at most 4. (They are not
identical on all strings: the validator has no length guard, so a 5-codepoint
string of emoji characters is accepted by the validator and rejected by the
fixer, see the counterexample.) -/
theorem C8_emoji_validity_agree_short (s : String) (h : s.length ≤ 4) :
    PromptFixer_is_valid_emoji (.str s) = PromptValidator_looks_like_emoji (.str s) := by
  unfold PromptFixer_is_valid_emoji PromptValidator_looks_like_emoji
  by_cases he : s = ""
  · subst he; rfl
  · have hbe : (s == "") = false := by simp [he]
    have h4 : ¬ (s.length > 4) := by omega
    simp [hbe, h4]
    rfl

theorem C8_emoji_validity_agree_short_witness :
    ("⭐" : String).length ≤ 4 ∧
    PromptFixer_is_valid_emoji (.str "⭐") = PromptValidator_looks_like_emoji (.str "⭐") :=
  ⟨by decide, C8_emoji_validity_agree_short "⭐" (by decide)⟩

theorem rget_rset_self (r : Record) (k : String) (v : PyValue) :
    rget (rset r k v) k = some v := by
  induction r with
  | nil => simp [rset, rget]
  | cons kv rest ih =>
    by_cases hk : kv.1 == k
    · simp [rset, hk, rget]
    · simp [rset, hk, rget, ih]

theorem rget_rset_ne (r : Record) (k k' : String) (v : PyValue) (h : (k' == k) = false) :
    rget (rset r k v) k' = rget r k' := by
  induction r with
  | nil =>
    simp [rset, rget]
    intro he
    rw [he] at h
    simp at h
  | cons kv rest ih =>
    by_cases hk : kv.1 == k
    · have hk' := eq_of_beq hk
      have hne : k ≠ k' := fun he => by rw [he] at h; simp at h
      simp [rset, hk, rget, hk', hne]
    · simp [rset, hk, rget, ih]

theorem fix_id_sets (r : Record) (index : Nat) :
    rget (PromptFixer_fix_id r index).1 "id" =
      some (.str (pyIntStr ((index : Int) + 1))) := by
  unfold PromptFixer_fix_id
  by_cases hp : pyEq (rgetD r "id" .none) (.str (pyIntStr ((index : Int) + 1)))
  · simp only [hp, Bool.not_true, Bool.false_eq_true, if_false]
    cases hv : rgetD r "id" .none with
    | str a =>
      have : a = pyIntStr ((index : Int) + 1) := by
        rw [hv] at hp
        simpa [pyEq] using hp
      subst this
      simp only []
      unfold rgetD at hv
      cases hr : rget r "id" with
      | some v =>
        rw [hr] at hv
        simp at hv
        rw [hv]
      | none => rw [hr] at hv; simp at hv
    | none => rw [hv] at hp; simp [pyEq] at hp
    | bool b => rw [hv] at hp; simp [pyEq] at hp
    | int n => rw [hv] at hp; simp [pyEq] at hp
    | list l => rw [hv] at hp; simp [pyEq] at hp
    | dict d => rw [hv] at hp; simp [pyEq] at hp
  · simp only [hp]
    simp [rget_rset_self]

theorem fix_name_shape (r r' : Record) (b : Bool)
    (h : PromptFixer_fix_name r = Except.ok (r', b)) :
    r' = r ∨ ∃ v, r' = rset r "name" v := by
  unfold PromptFixer_fix_name at h
  dsimp only at h
  split at h
  · cases hx : PromptFixer_extract_name_from_content (rgetD r "prompt" (.str "")) with
    | error e =>
      rw [hx] at h
      simp [bind, Except.bind] at h
    | ok optName =>
      rw [hx] at h
      simp only [bind, Except.bind] at h
      cases optName with
      | none =>
        dsimp only at h
        simp only [pure, Except.pure, Except.ok.injEq, Prod.mk.injEq] at h
        exact Or.inr ⟨_, h.1.symm⟩
      | some nm =>
        dsimp only at h
        split at h <;>
          (simp only [pure, Except.pure, Except.ok.injEq, Prod.mk.injEq] at h
           exact Or.inr ⟨_, h.1.symm⟩)
  · simp only [pure, Except.pure, Except.ok.injEq, Prod.mk.injEq] at h
    exact Or.inl h.1.symm

theorem except_bind_ok {α β : Type} (x : Except String α) (f : α → Except String β) (b : β)
    (h : (x >>= f) = Except.ok b) : ∃ a, x = Except.ok a ∧ f a = Except.ok b := by
  cases x with
  | error e => simp [bind, Except.bind] at h
  | ok a => exact ⟨a, rfl, by simpa [bind, Except.bind] using h⟩

theorem fix_description_shape (r : Record) :
    (PromptFixer_fix_description r).1 = r ∨
      ∃ v, (PromptFixer_fix_description r).1 = rset r "description" v := by
  unfold PromptFixer_fix_description
  dsimp only
  split
  · exact Or.inr ⟨_, rfl⟩
  · exact Or.inl rfl
  · exact Or.inr ⟨_, rfl⟩

theorem fix_group_shape (r : Record) :
    (PromptFixer_fix_group r).1 = r ∨
      ∃ v, (PromptFixer_fix_group r).1 = rset r "group" v := by
  unfold PromptFixer_fix_group
  dsimp only
  split
  · exact Or.inr ⟨_, rfl⟩
  · exact Or.inr ⟨_, rfl⟩
  · split
    · exact Or.inr ⟨_, rfl⟩
    · split
      · exact Or.inr ⟨_, rfl⟩
      · split
        · exact Or.inr ⟨_, rfl⟩
        · exact Or.inl rfl
  · exact Or.inr ⟨_, rfl⟩

theorem fix_emoji_shape (r r' : Record) (b : Bool)
    (h : PromptFixer_fix_emoji r = Except.ok (r', b)) :
    r' = r ∨ ∃ v, r' = rset r "emoji" v := by
  unfold PromptFixer_fix_emoji at h
  dsimp only at h
  split at h
  · simp only [bind, Except.bind, pure, Except.pure] at h
    simp only [if_true] at h
    simp only [Except.ok.injEq, Prod.mk.injEq] at h
    exact Or.inr ⟨_, h.1.symm⟩
  · obtain ⟨v, _, h2⟩ := except_bind_ok _ _ _ h
    simp only [bind, Except.bind, pure, Except.pure] at h2
    split at h2 <;>
      simp only [Except.ok.injEq, Prod.mk.injEq] at h2
    · exact Or.inr ⟨_, h2.1.symm⟩
    · exact Or.inl h2.1.symm

theorem fix_prompt_shape (r r' : Record) (b : Bool)
    (h : PromptFixer_fix_prompt r = Except.ok (r', b)) :
    r' = r ∨ ∃ v, r' = rset r "prompt" v := by
  unfold PromptFixer_fix_prompt at h
  dsimp only at h
  split at h
  · obtain ⟨fm, _, h2⟩ := except_bind_ok _ _ _ h
    simp only [pure, Except.pure, Except.ok.injEq, Prod.mk.injEq] at h2
    exact Or.inr ⟨_, h2.1.symm⟩
  · split at h
    · split at h
      · obtain ⟨fm, _, h2⟩ := except_bind_ok _ _ _ h
        simp only [pure, Except.pure, Except.ok.injEq, Prod.mk.injEq] at h2
        exact Or.inr ⟨_, h2.1.symm⟩
      · simp only [pure, Except.pure, Except.ok.injEq, Prod.mk.injEq] at h
        exact Or.inl h.1.symm
    · simp only [pure, Except.pure, Except.ok.injEq, Prod.mk.injEq] at h
      exact Or.inr ⟨_, h.1.symm⟩

theorem shape_id {r r' : Record} {key : String} (hk : ("id" == key) = false)
    (h : r' = r ∨ ∃ v, r' = rset r key v) : rget r' "id" = rget r "id" := by
  rcases h with h | ⟨v, h⟩
  · rw [h]
  · rw [h]
    exact rget_rset_ne r key "id" v hk

/-- After `fix_prompt_object` at index `i`, the record's id is
`str(i + 1)`: `fix_id` forces it and no later fix touches the id field. -/
theorem fix_prompt_object_id (r r' : Record) (b : Bool) (index : Nat)
    (h : PromptFixer_fix_prompt_object r index = Except.ok (r', b)) :
    rget r' "id" = some (.str (pyIntStr ((index : Int) + 1))) := by
  unfold PromptFixer_fix_prompt_object at h
  rcases hfx : PromptFixer_fix_id r index with ⟨r1, b1⟩
  rw [hfx] at h
  dsimp only at h
  obtain ⟨⟨r2, b2⟩, hn, h⟩ := except_bind_ok _ _ _ h
  rcases hdd : PromptFixer_fix_description r2 with ⟨r3, b3⟩
  rw [hdd] at h
  dsimp only at h
  obtain ⟨⟨r4, b4⟩, he, h⟩ := except_bind_ok _ _ _ h
  rcases hgg : PromptFixer_fix_group r4 with ⟨r5, b5⟩
  rw [hgg] at h
  dsimp only at h
  obtain ⟨⟨r6, b6⟩, hp, h⟩ := except_bind_ok _ _ _ h
  simp only [pure, Except.pure, Except.ok.injEq, Prod.mk.injEq] at h
  rw [← h.1]
  have e6 : rget r6 "id" = rget r5 "id" :=
    shape_id (by decide) (fix_prompt_shape r5 r6 b6 hp)
  have e5 : rget r5 "id" = rget r4 "id" := by
    have := fix_group_shape r4
    rw [hgg] at this
    exact shape_id (by decide) this
  have e4 : rget r4 "id" = rget r3 "id" :=
    shape_id (by decide) (fix_emoji_shape r3 r4 b4 he)
  have e3 : rget r3 "id" = rget r2 "id" := by
    have := fix_description_shape r2
    rw [hdd] at this
    exact shape_id (by decide) this
  have e2 : rget r2 "id" = rget r1 "id" :=
    shape_id (by decide) (fix_name_shape r1 r2 b2 hn)
  have e1 : rget r1 "id" = some (.str (pyIntStr ((index : Int) + 1))) := by
    have := fix_id_sets r index
    rw [hfx] at this
    exact this
  rw [e6, e5, e4, e3, e2, e1]

/-- Ids after the repair loop starting at index `n`. -/
theorem fixRecordsFrom_id (ps : List Record) :
    ∀ (n : Nat) (ps' : List Record), fixRecordsFrom n ps = Except.ok ps' →
      ∀ i (hi : i < ps'.length),
        rget (ps'.get ⟨i, hi⟩) "id" = some (.str (pyIntStr ((n : Int) + i + 1))) := by
  induction ps with
  | nil =>
    intro n ps' h i hi
    simp only [fixRecordsFrom, pure, Except.pure, Except.ok.injEq] at h
    rw [← h] at hi
    simp at hi
  | cons r rs ih =>
    intro n ps' h i hi
    unfold fixRecordsFrom at h
    obtain ⟨⟨r1, b1⟩, hr, h⟩ := except_bind_ok _ _ _ h
    obtain ⟨rest, hrest, h⟩ := except_bind_ok _ _ _ h
    simp only [pure, Except.pure, Except.ok.injEq] at h
    subst h
    cases i with
    | zero =>
      simpa using fix_prompt_object_id r r1 b1 n hr
    | succ j =>
      have hj : j < rest.length := by simpa using hi
      have hrec := ih (n + 1) rest hrest j hj
      have hget : (r1 :: rest).get ⟨j + 1, hi⟩ = rest.get ⟨j, hj⟩ := rfl
      rw [hget, hrec]
      congr 3
      push_cast
      omega

theorem charDigitVal_digitChar (d : Nat) (h : d < 10) :
    charDigitVal (digitChar d) = d := by
  interval_cases d <;> rfl

theorem decimalToNat_append (a : List Char) (c : Char) :
    decimalToNat (a ++ [c]) = decimalToNat a * 10 + charDigitVal c := by
  simp [decimalToNat, List.foldl_append]

theorem decimalToNat_natToDecimalAux (fuel n : Nat) (h : n < fuel) :
    decimalToNat (natToDecimalAux fuel n) = n := by
  induction fuel generalizing n with
  | zero => omega
  | succ f ih =>
    by_cases h10 : n < 10
    · simp [natToDecimalAux, h10, decimalToNat, charDigitVal_digitChar n h10]
    · simp only [natToDecimalAux, h10, if_false]
      rw [decimalToNat_append, ih (n / 10) (by omega)]
      rw [charDigitVal_digitChar (n % 10) (Nat.mod_lt n (by omega))]
      omega

theorem natToDecimal_inj (m n : Nat) (h : natToDecimal m = natToDecimal n) : m = n := by
  have hm := decimalToNat_natToDecimalAux (m + 1) m (by omega)
  have hn := decimalToNat_natToDecimalAux (n + 1) n (by omega)
  rw [natToDecimal] at h
  rw [natToDecimal] at h
  rw [h] at hm
  omega

theorem pyIntStr_nat_inj (m n : Nat) (h : pyIntStr ((m : Int) + 1) = pyIntStr ((n : Int) + 1)) :
    m = n := by
  have hm : ¬ ((m : Int) + 1 < 0) := by omega
  have hn : ¬ ((n : Int) + 1 < 0) := by omega
  simp only [pyIntStr, hm, hn, if_false] at h
  have hdata : natToDecimal ((m : Int) + 1).toNat = natToDecimal ((n : Int) + 1).toNat := by
    have := congrArg String.data h
    simpa using this
  have := natToDecimal_inj _ _ hdata
  omega

/-- Claim C5: after the repair engine has processed a collection (applying
`fix_prompt_object`, and hence `fix_id`, at every 0-based index), the record
at position `i` carries id `str(i+1)`, so the ids are exactly "1".."N" in
collection order with no duplicates, regardless of their prior values. -/
theorem C5_ids_positional_and_distinct (ps ps' : List Record) (h : fixRecords ps = Except.ok ps') :
    (∀ i (hi : i < ps'.length),
      rget (ps'.get ⟨i, hi⟩) "id" = some (.str (pyIntStr ((i : Int) + 1)))) ∧
    (∀ i j (hi : i < ps'.length) (hj : j < ps'.length),
      rget (ps'.get ⟨i, hi⟩) "id" = rget (ps'.get ⟨j, hj⟩) "id" → i = j) := by
  have hall := fixRecordsFrom_id ps 0 ps' h
  constructor
  · intro i hi
    simpa using hall i hi
  · intro i j hi hj heq
    have h1 := hall i hi
    have h2 := hall j hj
    rw [h1, h2] at heq
    simp only [Option.some.injEq, PyValue.str.injEq] at heq
    apply pyIntStr_nat_inj i j
    simpa using heq

theorem C5_ids_positional_and_distinct_witness :
    fixRecords [healthyRecord] = Except.ok [healthyRecord] ∧
    rget healthyRecord "id" = some (.str (pyIntStr ((0 : Int) + 1))) :=
  ⟨rfl, (C5_ids_positional_and_distinct [healthyRecord] [healthyRecord] rfl).1 0 (by decide)⟩

/-- `seenAfter` steps. -/
theorem seenAfter_cons (S : List PyValue) (r : Record) (rs : List Record) :
    seenAfter S (r :: rs) =
      (match rgetD r "id" .none with
       | .none => seenAfter S rs
       | .str s =>
         if !pyIsDigitStr s then seenAfter S rs else seenAfter (S ++ [.str s]) rs
       | .list _ => seenAfter S rs
       | .dict _ => seenAfter S rs
       | v => seenAfter (S ++ [v]) rs) := rfl

theorem seenAfter_eq (xs : List Record) : ∀ S, seenAfter S xs = S ++ enteredIds xs := by
  induction xs with
  | nil => intro S; simp [seenAfter, enteredIds]
  | cons r rs ih =>
    intro S
    rw [seenAfter_cons]
    cases hid : rgetD r "id" .none with
    | none => simp [enteredIds, List.filterMap_cons, enteredIdF, hid, ih S]
    | str s =>
      by_cases hdig : pyIsDigitStr s
      · simp [hdig, enteredIds, List.filterMap_cons, enteredIdF, hid,
          ih (S ++ [PyValue.str s])]
      · simp [hdig, enteredIds, List.filterMap_cons, enteredIdF, hid, ih S]
    | int n => simp [enteredIds, List.filterMap_cons, enteredIdF, hid, ih (S ++ [PyValue.int n])]
    | bool b => simp [enteredIds, List.filterMap_cons, enteredIdF, hid, ih (S ++ [PyValue.bool b])]
    | list l => simp [enteredIds, List.filterMap_cons, enteredIdF, hid, ih S]
    | dict dd => simp [enteredIds, List.filterMap_cons, enteredIdF, hid, ih S]

theorem dupMsg_ne_seqMsg (d : String) (p : Nat) (e : String) :
    (seqMsg p e == dupMsg d) = false := by
  cases hb : seqMsg p e == dupMsg d
  · rfl
  · exfalso
    have h := eq_of_beq hb
    unfold seqMsg dupMsg at h
    have h2 := congrArg String.data h
    simp only [String.data_append] at h2
    simp [List.cons_append] at h2

theorem digitErr_ne_dupMsg (d : String) (s : String) :
    (("ID must be numeric string, got '" ++ s ++ "'") == dupMsg d) = false := by
  cases hb : ("ID must be numeric string, got '" ++ s ++ "'") == dupMsg d
  · rfl
  · exfalso
    have h := eq_of_beq hb
    unfold dupMsg at h
    have h2 := congrArg String.data h
    simp only [String.data_append] at h2
    simp [List.cons_append] at h2

theorem isDupErrorFor_seqIssue (d : String) (p : Nat) (e : String) :
    isDupErrorFor d (seqIssue p e) = false := by
  simp [isDupErrorFor, seqIssue, dupMsg_ne_seqMsg]

theorem isDupErrorFor_digitErr (d : String) (s : String) :
    isDupErrorFor d (digitErrIssue s) = false := by
  simp only [isDupErrorFor, digitErrIssue]
  simp [digitErr_ne_dupMsg]

theorem isDupErrorFor_dupIssue_self (d : String) :
    isDupErrorFor d (dupIssue (.str d)) = true := by
  simp [isDupErrorFor, dupIssue, dupMsg, pyToStr]

/-- Controlled unfolding of `check_id_sequence_from` on a cons cell. -/
theorem check_from_cons (i : Nat) (seen : List PyValue) (p : Record) (ps : List Record) :
    check_id_sequence_from i seen (p :: ps) =
      (match rgetD p "id" .none with
       | .none => check_id_sequence_from (i + 1) seen ps
       | .str s =>
         if !pyIsDigitStr s then do
           let rest ← check_id_sequence_from (i + 1) seen ps
           pure (digitErrIssue s :: rest)
         else do
           let pre :=
             (if seen.any (pyEq (.str s)) then [dupIssue (.str s)] else []) ++
             (if s != pyIntStr (i : Int) then [seqIssue i s] else [])
           let rest ← check_id_sequence_from (i + 1) (seen ++ [.str s]) ps
           pure (pre ++ rest)
       | .list _ => Except.error "TypeError: unhashable type: 'list'"
       | .dict _ => Except.error "TypeError: unhashable type: 'dict'"
       | v => do
         let pre := if seen.any (pyEq v) then [dupIssue v] else []
         let rest ← check_id_sequence_from (i + 1) (seen ++ [v]) ps
         pure (pre ++ rest)) := rfl

/-- Composition of two successful runs of the id-sequencing loop. -/
theorem check_from_append_ok (xs : List Record) :
    ∀ (ys : List Record) (n : Nat) (S : List PyValue) (a b : List ValidationIssue),
      check_id_sequence_from n S xs = Except.ok a →
      check_id_sequence_from (n + xs.length) (seenAfter S xs) ys = Except.ok b →
      check_id_sequence_from n S (xs ++ ys) = Except.ok (a ++ b) := by
  induction xs with
  | nil =>
    intro ys n S a b ha hb
    simp only [check_id_sequence_from, pure, Except.pure, Except.ok.injEq] at ha
    subst ha
    simpa [seenAfter] using hb
  | cons r rs ih =>
    intro ys n S a b ha hb
    rw [seenAfter_cons] at hb
    rw [check_from_cons] at ha
    rw [List.cons_append, check_from_cons]
    have hlen : n + (r :: rs).length = (n + 1) + rs.length := by
      simp [List.length_cons]
      omega
    rw [hlen] at hb
    cases hid : rgetD r "id" .none with
    | none =>
      rw [hid] at ha hb
      exact ih ys (n + 1) S a b ha hb
    | str s =>
      rw [hid] at ha hb
      by_cases hdig : pyIsDigitStr s
      · simp only [hdig, Bool.not_true, Bool.false_eq_true, if_false] at ha ⊢
        obtain ⟨rest, hrest, ha2⟩ := except_bind_ok _ _ _ ha
        simp only [pure, Except.pure, Except.ok.injEq] at ha2
        subst ha2
        simp only [hdig, Bool.not_true, Bool.false_eq_true, if_false] at hb
        have := ih ys (n + 1) (S ++ [PyValue.str s]) rest b hrest hb
        rw [this]
        simp [bind, Except.bind, pure, Except.pure, List.append_assoc]
      · simp only [hdig, Bool.not_false, if_true] at ha hb ⊢
        obtain ⟨rest, hrest, ha2⟩ := except_bind_ok _ _ _ ha
        simp only [pure, Except.pure, Except.ok.injEq] at ha2
        subst ha2
        have := ih ys (n + 1) S rest b hrest hb
        rw [this]
        simp [bind, Except.bind, pure, Except.pure]
    | int m =>
      rw [hid] at ha hb
      dsimp only at ha hb ⊢
      obtain ⟨rest, hrest, ha2⟩ := except_bind_ok _ _ _ ha
      simp only [pure, Except.pure, Except.ok.injEq] at ha2
      subst ha2
      have := ih ys (n + 1) (S ++ [PyValue.int m]) rest b hrest hb
      rw [this]
      simp [bind, Except.bind, pure, Except.pure, List.append_assoc]
    | bool bb =>
      rw [hid] at ha hb
      dsimp only at ha hb ⊢
      obtain ⟨rest, hrest, ha2⟩ := except_bind_ok _ _ _ ha
      simp only [pure, Except.pure, Except.ok.injEq] at ha2
      subst ha2
      have := ih ys (n + 1) (S ++ [PyValue.bool bb]) rest b hrest hb
      rw [this]
      simp [bind, Except.bind, pure, Except.pure, List.append_assoc]
    | list l => rw [hid] at ha; cases ha
    | dict dd => rw [hid] at ha; cases ha

/-- A run of the id-sequencing loop over records whose ids never hit the
accumulated `id_set` produces no duplicate-id error (for any id). -/
theorem check_from_clean (xs : List Record) :
    ∀ (n : Nat) (S : List PyValue),
      (∀ r, r ∈ xs → idHashable r = true) →
      (∀ k (hk : k < xs.length), checksDup (getId (xs.get ⟨k, hk⟩)) = true →
        (S ++ enteredIds (xs.take k)).any (pyEq (getId (xs.get ⟨k, hk⟩))) = false) →
      ∃ issues, check_id_sequence_from n S xs = Except.ok issues ∧
        ∀ it ∈ issues, ∀ d : String, isDupErrorFor d it = false := by
  induction xs with
  | nil =>
    intro n S _ _
    exact ⟨[], rfl, by simp⟩
  | cons r rs ih =>
    intro n S hh hnd
    rw [check_from_cons]
    have hh' : ∀ x, x ∈ rs → idHashable x = true :=
      fun x hx => hh x (List.mem_cons_of_mem r hx)
    cases hid : rgetD r "id" .none with
    | none =>
      have hnd' : ∀ k (hk : k < rs.length), checksDup (getId (rs.get ⟨k, hk⟩)) = true →
          (S ++ enteredIds (rs.take k)).any (pyEq (getId (rs.get ⟨k, hk⟩))) = false := by
        intro k hk hc
        have := hnd (k + 1) (by simpa using Nat.succ_lt_succ hk) hc
        simpa [List.take_succ_cons, enteredIds, enteredIdF, List.filterMap_cons, hid] using this
      dsimp only
      exact ih (n + 1) S hh' hnd'
    | str s =>
      by_cases hdig : pyIsDigitStr s
      · have h0 : (S ++ enteredIds ((r :: rs).take 0)).any (pyEq (getId ((r :: rs).get ⟨0, by simp⟩))) = false := by
          apply hnd 0 (by simp)
          simp [getId, hid, checksDup, hdig]
        have hS : S.any (pyEq (PyValue.str s)) = false := by
          simpa [getId, hid, enteredIds, enteredIdF] using h0
        have hnd' : ∀ k (hk : k < rs.length), checksDup (getId (rs.get ⟨k, hk⟩)) = true →
            ((S ++ [PyValue.str s]) ++ enteredIds (rs.take k)).any (pyEq (getId (rs.get ⟨k, hk⟩))) = false := by
          intro k hk hc
          have := hnd (k + 1) (by simpa using Nat.succ_lt_succ hk) hc
          simpa [List.take_succ_cons, enteredIds, enteredIdF, List.filterMap_cons, hid, hdig,
            List.append_assoc] using this
        obtain ⟨rest, hrest, hclean⟩ := ih (n + 1) (S ++ [PyValue.str s]) hh' hnd'
        refine ⟨(if (s != pyIntStr (n : Int)) = true then [seqIssue n s] else []) ++ rest, ?_, ?_⟩
        · simp only [hdig, Bool.not_true, Bool.false_eq_true, if_false, hS, hrest]
          simp [bind, Except.bind, pure, Except.pure, hS]
        · intro it hit d
          rcases List.mem_append.mp hit with h1 | h2
          · split at h1
            · rcases List.mem_singleton.mp h1 with rfl
              exact isDupErrorFor_seqIssue d n s
            · cases h1
          · exact hclean it h2 d
      · have hnd' : ∀ k (hk : k < rs.length), checksDup (getId (rs.get ⟨k, hk⟩)) = true →
            (S ++ enteredIds (rs.take k)).any (pyEq (getId (rs.get ⟨k, hk⟩))) = false := by
          intro k hk hc
          have := hnd (k + 1) (by simpa using Nat.succ_lt_succ hk) hc
          simpa [List.take_succ_cons, enteredIds, enteredIdF, List.filterMap_cons, hid, hdig] using this
        obtain ⟨rest, hrest, hclean⟩ := ih (n + 1) S hh' hnd'
        refine ⟨digitErrIssue s :: rest, ?_, ?_⟩
        · simp only [hdig, Bool.not_false, if_true, hrest]
          simp [bind, Except.bind, pure, Except.pure]
        · intro it hit d
          rcases List.mem_cons.mp hit with rfl | h2
          · exact isDupErrorFor_digitErr d s
          · exact hclean it h2 d
    | int m =>
      have h0 : S.any (pyEq (PyValue.int m)) = false := by
        have := hnd 0 (by simp) (by simp [getId, hid, checksDup])
        simpa [getId, hid, enteredIds, enteredIdF] using this
      have hnd' : ∀ k (hk : k < rs.length), checksDup (getId (rs.get ⟨k, hk⟩)) = true →
          ((S ++ [PyValue.int m]) ++ enteredIds (rs.take k)).any (pyEq (getId (rs.get ⟨k, hk⟩))) = false := by
        intro k hk hc
        have := hnd (k + 1) (by simpa using Nat.succ_lt_succ hk) hc
        simpa [List.take_succ_cons, enteredIds, enteredIdF, List.filterMap_cons, hid,
          List.append_assoc] using this
      obtain ⟨rest, hrest, hclean⟩ := ih (n + 1) (S ++ [PyValue.int m]) hh' hnd'
      refine ⟨rest, ?_, hclean⟩
      dsimp only
      simp [h0, hrest, bind, Except.bind, pure, Except.pure]
    | bool bb =>
      have h0 : S.any (pyEq (PyValue.bool bb)) = false := by
        have := hnd 0 (by simp) (by simp [getId, hid, checksDup])
        simpa [getId, hid, enteredIds, enteredIdF] using this
      have hnd' : ∀ k (hk : k < rs.length), checksDup (getId (rs.get ⟨k, hk⟩)) = true →
          ((S ++ [PyValue.bool bb]) ++ enteredIds (rs.take k)).any (pyEq (getId (rs.get ⟨k, hk⟩))) = false := by
        intro k hk hc
        have := hnd (k + 1) (by simpa using Nat.succ_lt_succ hk) hc
        simpa [List.take_succ_cons, enteredIds, enteredIdF, List.filterMap_cons, hid,
          List.append_assoc] using this
      obtain ⟨rest, hrest, hclean⟩ := ih (n + 1) (S ++ [PyValue.bool bb]) hh' hnd'
      refine ⟨rest, ?_, hclean⟩
      dsimp only
      simp [h0, hrest, bind, Except.bind, pure, Except.pure]
    | list l =>
      exfalso
      have := hh r (List.mem_cons_self r rs)
      simp [idHashable, hid] at this
    | dict dd =>
      exfalso
      have := hh r (List.mem_cons_self r rs)
      simp [idHashable, hid] at this

theorem enteredIdF_some (r : Record) (x : PyValue) (h : enteredIdF r = some x) :
    getId r = x := by
  unfold enteredIdF at h
  unfold getId
  cases hid : rgetD r "id" .none with
  | str s =>
    rw [hid] at h
    dsimp only at h
    split at h
    · cases h; rfl
    · cases h
  | int n => rw [hid] at h; cases h; rfl
  | bool b => rw [hid] at h; cases h; rfl
  | none => rw [hid] at h; cases h
  | list l => rw [hid] at h; cases h
  | dict dd => rw [hid] at h; cases h

/-- From the exactly-one-duplicated-id hypothesis: a record at a
position other than the second occurrence never finds its id in the
accumulated set. -/
theorem cond_not_second (ps : List Record) (i j : Nat)
    (huniq : ∀ (k l : Nat) (hk : k < ps.length) (hl : l < ps.length), k < l →
      pyEq (getId (ps.get ⟨l, hl⟩)) (getId (ps.get ⟨k, hk⟩)) = true → k = i ∧ l = j)
    (l : Nat) (hl : l < ps.length) (hlj : l ≠ j) :
    (enteredIds (ps.take l)).any (pyEq (getId (ps.get ⟨l, hl⟩))) = false := by
  cases hany : (enteredIds (ps.take l)).any (pyEq (getId (ps.get ⟨l, hl⟩)))
  · rfl
  · exfalso
    obtain ⟨x, hxmem, hpx⟩ := List.any_eq_true.mp hany
    obtain ⟨a, hamem, hfa⟩ := List.mem_filterMap.mp hxmem
    obtain ⟨k, hk, hak⟩ := List.mem_iff_getElem.mp hamem
    have hklen : k < l := by
      have := hk
      simp [List.length_take] at this
      omega
    have hkps : k < ps.length := by omega
    have hgk : ps[k] = a := by
      rw [← List.getElem_take ps (j := l) (h := hk)]
      exact hak
    have hx : getId (ps.get ⟨k, hkps⟩) = x := by
      rw [List.get_eq_getElem]
      rw [hgk]
      exact enteredIdF_some a x hfa
    have := huniq k l hkps hl hklen (by rw [hx]; exact hpx)
    exact hlj this.2

/-- Claim C10 (amended): in a collection where every id is hashable and
exactly two records (at positions `|A|` and `|A|+1+|B|`, 0-based) bear the
same digit-string id `d`, `check_id_sequence` succeeds and reports exactly
one duplicate-id error for `d`; that error is attributed to the second
occurrence (the run stopped before the second occurrence reports none); and
each of the two records whose id differs from its 1-based position receives a
non-sequential-id warning. (The unamended claim fails when a record's id is
unhashable — a list or dict id makes the check raise `TypeError` and abort,
see the counterexample.) -/
theorem C10_duplicate_id_reporting (A B C : List Record) (ri rj : Record) (d : String)
    (hdig : pyIsDigitStr d = true)
    (hri : rgetD ri "id" .none = .str d)
    (hrj : rgetD rj "id" .none = .str d)
    (hhash : ∀ r, r ∈ A ++ ri :: (B ++ rj :: C) → idHashable r = true)
    (huniq : ∀ (k l : Nat) (hk : k < (A ++ ri :: (B ++ rj :: C)).length)
        (hl : l < (A ++ ri :: (B ++ rj :: C)).length), k < l →
        pyEq (getId ((A ++ ri :: (B ++ rj :: C)).get ⟨l, hl⟩))
             (getId ((A ++ ri :: (B ++ rj :: C)).get ⟨k, hk⟩)) = true →
        k = A.length ∧ l = A.length + 1 + B.length) :
    ∃ issues,
      check_id_sequence (A ++ ri :: (B ++ rj :: C)) = Except.ok issues ∧
      issues.countP (isDupErrorFor d) = 1 ∧
      (d ≠ pyIntStr ((A.length : Int) + 1) → seqIssue (A.length + 1) d ∈ issues) ∧
      (d ≠ pyIntStr ((A.length : Int) + 1 + B.length + 1) →
        seqIssue (A.length + 1 + B.length + 1) d ∈ issues) ∧
      (∃ issuesPrefix, check_id_sequence (A ++ ri :: B) = Except.ok issuesPrefix ∧
        issuesPrefix.countP (isDupErrorFor d) = 0) := by
  set ps := A ++ ri :: (B ++ rj :: C) with hps
  have lenps : ps.length = A.length + 1 + B.length + 1 + C.length := by
    simp [hps]
    omega
  -- element lookups
  have gA : ∀ k (hk : k < A.length), ps.get ⟨k, by rw [lenps]; omega⟩ = A.get ⟨k, hk⟩ := by
    intro k hk
    simp only [hps, List.get_eq_getElem]
    exact List.getElem_append_left hk
  have gri : ps.get ⟨A.length, by rw [lenps]; omega⟩ = ri := by
    simp only [hps, List.get_eq_getElem]
    rw [List.getElem_append_right (Nat.le_refl _)]
    simp
  have gB : ∀ k (hk : k < B.length),
      ps.get ⟨A.length + 1 + k, by rw [lenps]; omega⟩ = B.get ⟨k, hk⟩ := by
    intro k hk
    simp only [hps, List.get_eq_getElem]
    rw [List.getElem_append_right (by omega : A.length ≤ A.length + 1 + k)]
    have : A.length + 1 + k - A.length = k + 1 := by omega
    simp only [this, List.getElem_cons_succ]
    exact List.getElem_append_left hk
  have grj : ps.get ⟨A.length + 1 + B.length, by rw [lenps]; omega⟩ = rj := by
    simp only [hps, List.get_eq_getElem]
    rw [List.getElem_append_right (by omega : A.length ≤ A.length + 1 + B.length)]
    have : A.length + 1 + B.length - A.length = B.length + 1 := by omega
    simp only [this, List.getElem_cons_succ]
    rw [List.getElem_append_right (Nat.le_refl _)]
    simp
  have gC : ∀ k (hk : k < C.length),
      ps.get ⟨A.length + 1 + B.length + 1 + k, by rw [lenps]; omega⟩ = C.get ⟨k, hk⟩ := by
    intro k hk
    simp only [hps, List.get_eq_getElem]
    rw [List.getElem_append_right (by omega : A.length ≤ A.length + 1 + B.length + 1 + k)]
    have h1 : A.length + 1 + B.length + 1 + k - A.length = B.length + 1 + k + 1 := by omega
    simp only [h1, List.getElem_cons_succ]
    rw [List.getElem_append_right (by omega : B.length ≤ B.length + 1 + k)]
    have h2 : B.length + 1 + k - B.length = k + 1 := by omega
    simp only [h2, List.getElem_cons_succ]
  -- prefix computations
  have tA : ∀ k, k ≤ A.length → ps.take k = A.take k := by
    intro k hk
    simp only [hps]
    exact List.take_append_of_le_length hk
  have tI : ps.take A.length = A := by
    simp only [hps]
    exact List.take_left A _
  have tB : ∀ k, k ≤ B.length → ps.take (A.length + 1 + k) = A ++ ri :: B.take k := by
    intro k hk
    simp only [hps]
    have h1 : A.length + 1 + k = A.length + (k + 1) := by omega
    rw [h1, List.take_append]
    rw [List.take_succ_cons]
    congr 2
    exact List.take_append_of_le_length hk
  have tj : ps.take (A.length + 1 + B.length) = A ++ ri :: B := by
    rw [tB B.length (Nat.le_refl _), List.take_length]
  have tC : ∀ k, k ≤ C.length →
      ps.take (A.length + 1 + B.length + 1 + k) = A ++ ri :: (B ++ rj :: C.take k) := by
    intro k hk
    simp only [hps]
    have h1 : A.length + 1 + B.length + 1 + k = A.length + (B.length + 1 + k + 1) := by omega
    rw [h1, List.take_append, List.take_succ_cons]
    congr 2
    have h2 : B.length + 1 + k = B.length + (k + 1) := by omega
    rw [h2, List.take_append, List.take_succ_cons]
  -- entered ids of the key prefixes
  have efri : enteredIdF ri = some (.str d) := by
    simp [enteredIdF, hri, hdig]
  have efrj : enteredIdF rj = some (.str d) := by
    simp [enteredIdF, hrj, hdig]
  have eB : ∀ k, enteredIds (A ++ ri :: B.take k) =
      (enteredIds A ++ [PyValue.str d]) ++ enteredIds (B.take k) := by
    intro k
    simp [enteredIds, List.filterMap_append, List.filterMap_cons, efri]
  have eC : ∀ k, enteredIds (A ++ ri :: (B ++ rj :: C.take k)) =
      (((enteredIds A ++ [PyValue.str d]) ++ enteredIds B) ++ [PyValue.str d]) ++
        enteredIds (C.take k) := by
    intro k
    simp [enteredIds, List.filterMap_append, List.filterMap_cons, efri, efrj]
  -- hashability of each part
  have hhA : ∀ r, r ∈ A → idHashable r = true := by
    intro r hr
    exact hhash r (List.mem_append_left _ hr)
  have hhB : ∀ r, r ∈ B → idHashable r = true := by
    intro r hr
    exact hhash r (List.mem_append_right _ (List.mem_cons_of_mem _ (List.mem_append_left _ hr)))
  have hhC : ∀ r, r ∈ C → idHashable r = true := by
    intro r hr
    exact hhash r (List.mem_append_right _ (List.mem_cons_of_mem _
      (List.mem_append_right _ (List.mem_cons_of_mem _ hr))))
  -- clean runs on A, B, C
  have hndA : ∀ k (hk : k < A.length), checksDup (getId (A.get ⟨k, hk⟩)) = true →
      (([] : List PyValue) ++ enteredIds (A.take k)).any (pyEq (getId (A.get ⟨k, hk⟩))) = false := by
    intro k hk _
    have hc := cond_not_second ps A.length (A.length + 1 + B.length) huniq k
      (by rw [lenps]; omega) (by omega)
    rw [tA k (by omega), gA k hk] at hc
    simpa using hc
  obtain ⟨issuesA, runA, cleanA⟩ := check_from_clean A 1 [] hhA hndA
  have hndB : ∀ k (hk : k < B.length), checksDup (getId (B.get ⟨k, hk⟩)) = true →
      ((enteredIds A ++ [PyValue.str d]) ++ enteredIds (B.take k)).any
        (pyEq (getId (B.get ⟨k, hk⟩))) = false := by
    intro k hk _
    have hc := cond_not_second ps A.length (A.length + 1 + B.length) huniq (A.length + 1 + k)
      (by rw [lenps]; omega) (by omega)
    rw [tB k (by omega), gB k hk, eB k] at hc
    exact hc
  obtain ⟨issuesB, runB, cleanB⟩ :=
    check_from_clean B (A.length + 2) (enteredIds A ++ [PyValue.str d]) hhB hndB
  have hndC : ∀ k (hk : k < C.length), checksDup (getId (C.get ⟨k, hk⟩)) = true →
      ((((enteredIds A ++ [PyValue.str d]) ++ enteredIds B) ++ [PyValue.str d]) ++
        enteredIds (C.take k)).any (pyEq (getId (C.get ⟨k, hk⟩))) = false := by
    intro k hk _
    have hc := cond_not_second ps A.length (A.length + 1 + B.length) huniq
      (A.length + 1 + B.length + 1 + k) (by rw [lenps]; omega) (by omega)
    rw [tC k (by omega), gC k hk, eC k] at hc
    exact hc
  obtain ⟨issuesC, runC, cleanC⟩ :=
    check_from_clean C (A.length + 1 + B.length + 2)
      ((((enteredIds A ++ [PyValue.str d]) ++ enteredIds B) ++ [PyValue.str d])) hhC hndC
  -- the first occurrence does not find its id in the set
  have hSA : (enteredIds A).any (pyEq (PyValue.str d)) = false := by
    have hc := cond_not_second ps A.length (A.length + 1 + B.length) huniq A.length
      (by rw [lenps]; omega) (by omega)
    rw [tI, gri] at hc
    unfold getId at hc
    rw [hri] at hc
    exact hc
  -- the second occurrence does
  have hSrj : ((enteredIds A ++ [PyValue.str d]) ++ enteredIds B).any
      (pyEq (PyValue.str d)) = true := by
    apply List.any_eq_true.mpr
    refine ⟨PyValue.str d, by simp, by simp [pyEq]⟩
  -- notation for the two possible warnings
  set seqI : List ValidationIssue :=
    if (d != pyIntStr ((A.length + 1 : Nat) : Int)) = true
    then [seqIssue (A.length + 1) d] else [] with hseqI
  set seqJ : List ValidationIssue :=
    if (d != pyIntStr ((A.length + 1 + B.length + 1 : Nat) : Int)) = true
    then [seqIssue (A.length + 1 + B.length + 1) d] else [] with hseqJ
  -- run on rj :: C
  have runRjC : check_id_sequence_from (A.length + 1 + B.length + 1)
      ((enteredIds A ++ [PyValue.str d]) ++ enteredIds B) (rj :: C) =
      Except.ok (([dupIssue (PyValue.str d)] ++ seqJ) ++ issuesC) := by
    rw [check_from_cons, hrj]
    dsimp only
    simp only [hdig, Bool.not_true, Bool.false_eq_true, if_false, hSrj, if_true]
    rw [runC]
    simp [bind, Except.bind, pure, Except.pure, hseqJ]
  -- run on B ++ rj :: C
  have runBtail : check_id_sequence_from (A.length + 2)
      (enteredIds A ++ [PyValue.str d]) (B ++ rj :: C) =
      Except.ok (issuesB ++ (([dupIssue (PyValue.str d)] ++ seqJ) ++ issuesC)) := by
    apply check_from_append_ok B (rj :: C) (A.length + 2)
      (enteredIds A ++ [PyValue.str d]) issuesB _ runB
    rw [seenAfter_eq]
    have harith : A.length + 2 + B.length = A.length + 1 + B.length + 1 := by omega
    rw [harith]
    exact runRjC
  -- run on ri :: (B ++ rj :: C)
  have runRiTail : check_id_sequence_from (A.length + 1) (enteredIds A)
      (ri :: (B ++ rj :: C)) =
      Except.ok (seqI ++ (issuesB ++ (([dupIssue (PyValue.str d)] ++ seqJ) ++ issuesC))) := by
    rw [check_from_cons, hri]
    dsimp only
    simp only [hdig, Bool.not_true, Bool.false_eq_true, if_false, hSA]
    have harith : A.length + 1 + 1 = A.length + 2 := by omega
    rw [harith, runBtail]
    simp [bind, Except.bind, pure, Except.pure, hseqI]
  -- the whole run
  have runAll : check_id_sequence ps =
      Except.ok (issuesA ++
        (seqI ++ (issuesB ++ (([dupIssue (PyValue.str d)] ++ seqJ) ++ issuesC)))) := by
    unfold check_id_sequence
    apply check_from_append_ok A (ri :: (B ++ rj :: C)) 1 [] issuesA _ runA
    rw [seenAfter_eq]
    have harith : 1 + A.length = A.length + 1 := by omega
    rw [harith]
    simpa using runRiTail
  -- zero duplicate counts for the clean parts
  have z1 : issuesA.countP (isDupErrorFor d) = 0 :=
    List.countP_eq_zero.mpr (fun it hit => by simp [cleanA it hit d])
  have z2 : issuesB.countP (isDupErrorFor d) = 0 :=
    List.countP_eq_zero.mpr (fun it hit => by simp [cleanB it hit d])
  have z3 : issuesC.countP (isDupErrorFor d) = 0 :=
    List.countP_eq_zero.mpr (fun it hit => by simp [cleanC it hit d])
  have zseqI : seqI.countP (isDupErrorFor d) = 0 := by
    rw [hseqI]
    split <;> simp [List.countP_cons, isDupErrorFor_seqIssue]
  have zseqJ : seqJ.countP (isDupErrorFor d) = 0 := by
    rw [hseqJ]
    split <;> simp [List.countP_cons, isDupErrorFor_seqIssue]
  refine ⟨_, runAll, ?_, ?_, ?_, ?_⟩
  · simp only [List.countP_append, z1, z2, z3, zseqI, zseqJ]
    simp [List.countP_cons, isDupErrorFor_dupIssue_self d]
  · intro hne
    have hg : (d != pyIntStr ((A.length + 1 : Nat) : Int)) = true := by
      simp only [bne_iff_ne, ne_eq]
      intro he
      apply hne
      rw [he]
      congr 1
    have hmem : seqIssue (A.length + 1) d ∈ seqI := by
      rw [hseqI, if_pos hg]
      exact List.mem_singleton.mpr rfl
    simp only [List.mem_append]
    tauto
  · intro hne
    have hg : (d != pyIntStr ((A.length + 1 + B.length + 1 : Nat) : Int)) = true := by
      simp only [bne_iff_ne, ne_eq]
      intro he
      apply hne
      rw [he]
      congr 1
    have hmem : seqIssue (A.length + 1 + B.length + 1) d ∈ seqJ := by
      rw [hseqJ, if_pos hg]
      exact List.mem_singleton.mpr rfl
    simp only [List.mem_append]
    tauto
  · -- the prefix without the second occurrence shows no duplicate error
    have runRiB : check_id_sequence_from (A.length + 1) (enteredIds A) (ri :: B) =
        Except.ok (seqI ++ issuesB) := by
      rw [check_from_cons, hri]
      dsimp only
      simp only [hdig, Bool.not_true, Bool.false_eq_true, if_false, hSA]
      have harith : A.length + 1 + 1 = A.length + 2 := by omega
      rw [harith, runB]
      simp [bind, Except.bind, pure, Except.pure, hseqI]
    have runPrefix : check_id_sequence (A ++ ri :: B) =
        Except.ok (issuesA ++ (seqI ++ issuesB)) := by
      unfold check_id_sequence
      apply check_from_append_ok A (ri :: B) 1 [] issuesA _ runA
      rw [seenAfter_eq]
      have harith : 1 + A.length = A.length + 1 := by omega
      rw [harith]
      simpa using runRiB
    refine ⟨_, runPrefix, ?_⟩
    simp only [List.countP_append, z1, z2, zseqI]

theorem C10_duplicate_id_reporting_witness :
    pyIsDigitStr "3" = true ∧
    (∃ issues,
      check_id_sequence ([] ++ recordWithId "3" :: ([] ++ recordWithId "3" :: [])) =
        Except.ok issues ∧
      issues.countP (isDupErrorFor "3") = 1 ∧
      ("3" ≠ pyIntStr ((([] : List Record).length : Int) + 1) →
        seqIssue (([] : List Record).length + 1) "3" ∈ issues) ∧
      ("3" ≠ pyIntStr ((([] : List Record).length : Int) + 1 + ([] : List Record).length + 1) →
        seqIssue (([] : List Record).length + 1 + ([] : List Record).length + 1) "3" ∈ issues) ∧
      (∃ issuesPrefix, check_id_sequence ([] ++ recordWithId "3" :: []) = Except.ok issuesPrefix ∧
        issuesPrefix.countP (isDupErrorFor "3") = 0)) :=
  ⟨by decide,
   C10_duplicate_id_reporting [] [] [] (recordWithId "3") (recordWithId "3") "3"
     (by decide) rfl rfl
     (by
       intro r hr
       simp only [List.nil_append, List.mem_cons, List.not_mem_nil, or_false] at hr
       rcases hr with rfl | rfl <;> decide)
     (by
       intro k l hk hl hkl _
       simp only [List.nil_append, List.length_cons, List.length_nil] at hk hl ⊢
       omega)⟩

/-- Claim C1 is refuted by the code: the record whose emoji is the list
`["🔧"]` survives a full repair pass unchanged (the fixer's `_is_valid_emoji`
walks the list and accepts it), yet the validator reports one error-level
issue for it ("Emoji must be a string, got list"), so a repaired collection
is not validator-error-free. -/
theorem C1_fix_leaves_validator_error :
    fixRecords [emojiListRecord] = Except.ok [emojiListRecord] ∧
    (PromptValidator_validate false [emojiListRecord]).map countErrors = Except.ok 1 :=
  ⟨rfl, rfl⟩

/-- Claim C2 is refuted by the code: repairing a record whose group is the
string "" wraps it to the list [""] and stops, and on a second run
`fix_group` reports a further fix (the cleaning pass now drops the empty
element and substitutes ["General"]), so the repair engine is not
idempotent. -/
theorem C2_second_run_applies_fixes :
    fixRecords [strGroupRecord] = Except.ok [strGroupRecordFixed] ∧
    (PromptFixer_fix_group strGroupRecordFixed).2 = true ∧
    (PromptFixer_fix_prompt_object strGroupRecordFixed 0).map (fun p => p.2) = Except.ok true :=
  ⟨rfl, rfl, rfl⟩

/-- Claim C3 is refuted by the code: with description "zzz" and filename
"frontend", `generate_emoji` returns the default 🔧 even though the
developer pattern matches the concatenated search text (which would give 💻):
in `(description or "" + " " + filename).lower()` Python binds `+` tighter
than `or`, so a truthy description discards the filename entirely. -/
theorem C3_filename_pattern_not_selected :
    generate_emoji (.str "zzz") "frontend" = Except.ok "🔧" ∧
    scanEmojiPatterns (pyLower ("zzz" ++ " " ++ "frontend")) = some "💻" ∧
    DEFAULT_EMOJI_compile ≠ "💻" :=
  ⟨rfl, rfl, by decide⟩

/-- Counterexample to claim C4 as stated: the document "---\na: b\n---\nX"
has a well-formed frontmatter block, but the compiled prompt field is
"---\na: b\n---\n\nX" — the reconstruction inserts a blank line after the
closing delimiter, so the prompt is not the input verbatim. -/
theorem C4_prompt_not_verbatim_cex :
    (compile_file "---\na: b\n---\nX" "x").map (fun r => rget r "prompt") =
      Except.ok (some (.str "---\na: b\n---\n\nX")) ∧
    "---\na: b\n---\n\nX" ≠ "---\na: b\n---\nX" :=
  ⟨rfl, by decide⟩

/-- Claim C6 is refuted by the code: `normalize_category` maps the list
whose only element is the empty string to the empty list — the "default to
General" fallback exists only on the None and falsy-scalar paths, not on the
list path — so a compiled record's group can be an empty sequence. -/
theorem C6_empty_strings_category_empty_group :
    normalize_category (.list [.str ""]) = [] ∧
    (compile_file "---\ndescription: d\ncategory:\n  - \"\"\n---\nbody" "x").map
      (fun r => rget r "group") = Except.ok (some (.list [])) :=
  ⟨rfl, rfl⟩

/-- Claim C7 is refuted by the code: the YAML scalar coercion turns a
digits-only description into an integer and `compile_file` stores it as-is,
so the compiled description field is the integer 42, not a string. -/
theorem C7_description_compiles_to_int :
    (compile_file "---\ndescription: 42\nemoji: X\n---\nbody" "x").map
      (fun r => rget r "description") = Except.ok (some (.int 42)) :=
  rfl

/-- Counterexample to claim C8 as stated: on the 5-codepoint string
"⭐⭐⭐⭐⭐" the fixer's `_is_valid_emoji` answers false (its `len > 4` guard
fires) while the validator's `_looks_like_emoji` answers true (it has no
length guard), so the two validity notions are not identical. -/
theorem C8_emoji_validity_diverge_cex :
    PromptFixer_is_valid_emoji (.str "⭐⭐⭐⭐⭐") = Except.ok false ∧
    PromptValidator_looks_like_emoji (.str "⭐⭐⭐⭐⭐") = Except.ok true :=
  ⟨rfl, rfl⟩

/-- Claim C9 is refuted by the code: on a record whose prompt is the integer
5 and whose name is absent, `fix_name` calls `re.match` on the non-string
prompt and raises TypeError; the exception propagates out of the per-record
loop, so one record's type mismatch aborts the whole batch. -/
theorem C9_fix_name_raises_aborts_batch :
    PromptFixer_fix_name [("prompt", PyValue.int 5)] =
      Except.error "TypeError: expected string or bytes-like object" ∧
    fixRecords [[("prompt", PyValue.int 5)]] =
      Except.error "TypeError: expected string or bytes-like object" :=
  ⟨rfl, rfl⟩

/-- Counterexample to claim C10 as stated: with two records both bearing id
"3" followed by a record whose id is a list, `check_id_sequence` raises
TypeError (a list id is unhashable) instead of reporting the duplicate, so
the claim needs a hashability hypothesis. -/
theorem C10_unhashable_id_aborts_cex :
    check_id_sequence [recordWithId "3", recordWithId "3", [("id", .list [])]] =
      Except.error "TypeError: unhashable type: 'list'" :=
  rfl
